import Mathlib

/-!
Verification of the paper fold/flip engine (kami).

The development shallowly embeds the TypeScript sources over exact rational
arithmetic (`ℚ` in place of IEEE doubles).  Pure functions from the sources
(`src/geom/polygon.ts`, `src/paper/fold.ts` as embedded in
`src/config/options.ts`, `src/paper/flip.ts`, `src/paper/model.ts`,
`src/render/paper.ts`, and the two-phase runtime of `src/main.ts`) become Lean
functions; in-place mutation of a `Paper` becomes a function returning the
updated `Paper`.

Leaf math modules (`src/math/scalars.ts`, `src/math/vec2.ts`,
`src/geom/line2.ts`) are not present in the provided sources; the handful of
one-line helpers the clipping and fold code needs from them
(`EPS`, `lerp`, `easeInOutCubic`, vector arithmetic, `signedDistanceToLine`,
`makeLine`, `reflectPoint`) are modelled from the specification and are marked
as such in their doc comments.
-/

/-- Immutable 2D vector of rationals (source: `Vec2` of `src/math/vec2.ts`,
a pair of floating point numbers compared by value). -/
structure Vec2 where
  x : ℚ
  y : ℚ
deriving DecidableEq, Repr

/-- Modelled from the spec: 2D vector addition (`add2` of `src/math/vec2.ts`,
missing from the provided sources). -/
def add2 (a b : Vec2) : Vec2 := ⟨a.x + b.x, a.y + b.y⟩

/-- Modelled from the spec: 2D vector subtraction (`sub2` of
`src/math/vec2.ts`, missing from the provided sources). -/
def sub2 (a b : Vec2) : Vec2 := ⟨a.x - b.x, a.y - b.y⟩

/-- Modelled from the spec: scalar multiplication (`mul2` of
`src/math/vec2.ts`, missing from the provided sources). -/
def mul2 (a : Vec2) (s : ℚ) : Vec2 := ⟨a.x * s, a.y * s⟩

/-- Modelled from the spec: dot product (`dot2` of `src/math/vec2.ts`,
missing from the provided sources). -/
def dot2 (a b : Vec2) : ℚ := a.x * b.x + a.y * b.y

/-- Modelled from the spec: counter-clockwise perpendicular (`perp2` of
`src/math/vec2.ts`, missing from the provided sources).  This fixes the sign
convention of `signedDistanceToLine`: the "positive" half plane is the one the
perpendicular of `dir` points into. -/
def perp2 (a : Vec2) : Vec2 := ⟨-a.y, a.x⟩

/-- Cross product z-component of two 2D vectors, the quantity the shoelace
formula and the collinearity test accumulate. -/
def crossZ (a b : Vec2) : ℚ := a.x * b.y - b.x * a.y

/-- Modelled from the spec: `lerp` of `src/math/scalars.ts` (missing from the
provided sources), linear interpolation `a + (b - a) * t`. -/
def lerp (a b t : ℚ) : ℚ := a + (b - a) * t

/-- Modelled from the spec: `EPS` of `src/math/scalars.ts` (missing from the
provided sources).  The spec only calls it "a fixed epsilon tolerance"; the
concrete value `1e-9` is a model choice, and the theorems that depend on its
exact value say so. -/
def EPS : ℚ := 1 / 1000000000

/-- A line in local sheet space: a point `p` and a (unit) direction `dir`
(source: `Line2` of `src/geom/line2.ts`, missing from the provided sources;
modelled from the spec, which describes it as a point and unit direction whose
perpendicular normal defines the two half planes). -/
structure Line2 where
  p : Vec2
  dir : Vec2
deriving DecidableEq, Repr

/-- Modelled from the spec: `makeLine` of `src/geom/line2.ts` (missing from
the provided sources). -/
def makeLine (p dir : Vec2) : Line2 := ⟨p, dir⟩

/-- Modelled from the spec: `signedDistanceToLine` of `src/geom/line2.ts`
(missing from the provided sources): signed perpendicular distance of a point
from the line, positive on the side the perpendicular of `dir` points into.
Assumes `dir` is a unit vector, as the callers guarantee. -/
def signedDistanceToLine (pt : Vec2) (line : Line2) : ℚ :=
  dot2 (sub2 pt line.p) (perp2 line.dir)

/-- Modelled from the spec: `reflectPoint` of `src/geom/line2.ts` (missing
from the provided sources): mirror a point through the line.  Assumes `dir`
is a unit vector, as the callers guarantee. -/
def reflectPoint (pt : Vec2) (line : Line2) : Vec2 :=
  let n := perp2 line.dir
  let d := dot2 (sub2 pt line.p) n
  ⟨pt.x - 2 * d * n.x, pt.y - 2 * d * n.y⟩

/-!  `src/geom/polygon.ts` -/

/-- `VERTEX_COLLAPSE_THRESHOLD` of `src/geom/polygon.ts`. -/
def VERTEX_COLLAPSE_THRESHOLD : ℚ := 1 / 4

/-- `COLLINEARITY_THRESHOLD` of `src/geom/polygon.ts`. -/
def COLLINEARITY_THRESHOLD : ℚ := 1 / 20

/-- Rotate a list one step to the left (`[v0, v1, ..., vk]` becomes
`[v1, ..., vk, v0]`), so that `zip l (rotLeft1 l)` enumerates the pairs
`(v i, v ((i+1) % n))` of the source's modular edge loops. -/
def rotLeft1 {α : Type} : List α → List α
  | [] => []
  | a :: t => t ++ [a]

/-- Rotate a list one step to the right (`[v0, ..., vk]` becomes
`[vk, v0, ..., v(k-1)]`), so that `zip l (rotRight1 l)` enumerates the pairs
`(v i, v ((i-1+n) % n))` of the source's modular edge loops. -/
def rotRight1 {α : Type} (l : List α) : List α :=
  match l.reverse with
  | [] => []
  | b :: rt => b :: rt.reverse

/-- Pairs `(v i, v ((i+1) % n))` of a polygon, the edge traversal used by
`clipPolyHalfPlane` and `signedPolyArea`. -/
def cyclicPairs {α : Type} (l : List α) : List (α × α) := l.zip (rotLeft1 l)

/-- Pairs `(v i, v ((i-1+n) % n))` of a polygon, the edge traversal used by
`pointInPoly` (current vertex paired with the previous one). -/
def prevPairs {α : Type} (l : List α) : List (α × α) := l.zip (rotRight1 l)

/-- Pairs along a path `x, t0, ..., tk, z`: the list
`[(x,t0), (t0,t1), ..., (tk,z)]`.  This is the common combinatorial core of
`cyclicPairs` and `prevPairs`, used to relate a polygon's edge loops with
those of its reversal. -/
def pathPairs {α : Type} : α → List α → α → List (α × α)
  | x, [], z => [(x, z)]
  | x, y :: t, z => (x, y) :: pathPairs y t z

/-- One Sutherland-Hodgman step of `clipPolyHalfPlane` for the edge `a -> b`:
emit `b` when both endpoints are inside, the intersection when exactly one is,
plus `b` when entering.  Distances within `eps` of zero count as inside.
The epsilon is a parameter because the value of the source's global `EPS`
constant is not in the provided sources; `clipPolyHalfPlane` instantiates it
with the modelled `EPS`. -/
def clipEdgeEmit (eps : ℚ) (line : Line2) (keepSide : ℚ) (a b : Vec2) :
    List Vec2 :=
  let da := signedDistanceToLine a line * keepSide
  let db := signedDistanceToLine b line * keepSide
  let aIn := da ≥ -eps
  let bIn := db ≥ -eps
  if aIn ∧ bIn then [b]
  else if aIn ∧ ¬bIn then
    let t := da / (da - db)
    [⟨lerp a.x b.x t, lerp a.y b.y t⟩]
  else if ¬aIn ∧ bIn then
    let t := da / (da - db)
    [⟨lerp a.x b.x t, lerp a.y b.y t⟩, b]
  else []

/-- The raw Sutherland-Hodgman output of `clipPolyHalfPlane` before
`cleanupPoly` (the `out` array of the source). -/
def clipPolyRaw (eps : ℚ) (poly : List Vec2) (line : Line2) (keepSide : ℚ) :
    List Vec2 :=
  (cyclicPairs poly).foldl (fun out ab => out ++ clipEdgeEmit eps line keepSide ab.1 ab.2) []

/-- `collapseNearbyVertices` of `src/geom/polygon.ts`: drop vertices closer
than `VERTEX_COLLAPSE_THRESHOLD` to the previously kept one (the first vertex
is always kept), then drop the last vertex if it is within the threshold of
the first.  `Math.hypot dx dy > 1/4` is embedded as `dx^2 + dy^2 > (1/4)^2`,
which is equivalent for real inputs and exact over `ℚ`.  The source pushes to
an output array and inspects its last element; the accumulator here keeps that
array reversed so its head is the last pushed vertex. -/
def collapseNearbyVertices (poly : List Vec2) : List Vec2 :=
  if poly.length < 2 then poly else
  let revOut := poly.foldl
    (fun acc p =>
      match acc.head? with
      | none => [p]
      | some prev =>
        if (p.x - prev.x) ^ 2 + (p.y - prev.y) ^ 2 >
            VERTEX_COLLAPSE_THRESHOLD ^ 2 then p :: acc else acc)
    []
  let out := revOut.reverse
  match out.head?, out.getLast? with
  | some first, some last =>
    if out.length ≥ 2 ∧
        (first.x - last.x) ^ 2 + (first.y - last.y) ^ 2 <
          VERTEX_COLLAPSE_THRESHOLD ^ 2 then
      out.dropLast
    else out
  | _, _ => out

/-- `removeCollinearVertices` of `src/geom/polygon.ts`: keep a vertex only if
the cross product of its incident edge vectors exceeds
`COLLINEARITY_THRESHOLD` in magnitude.  The source indexes
`prev = poly[(i-1+n) % n]`, `curr = poly[i]`, `next = poly[(i+1) % n]`; the
triple zip below enumerates exactly those triples in order. -/
def removeCollinearVertices (poly : List Vec2) : List Vec2 :=
  if poly.length < 3 then poly else
  ((rotRight1 poly).zip (poly.zip (rotLeft1 poly))).filterMap
    (fun pcn =>
      let prev := pcn.1
      let curr := pcn.2.1
      let next := pcn.2.2
      let v1 := sub2 curr prev
      let v2 := sub2 next curr
      if |crossZ v1 v2| > COLLINEARITY_THRESHOLD then some curr else none)

/-- `cleanupPoly` of `src/geom/polygon.ts`. -/
def cleanupPoly (poly : List Vec2) : List Vec2 :=
  if poly.length < 3 then [] else
  let collapsed := collapseNearbyVertices poly
  if collapsed.length < 3 then [] else
  let cleaned := removeCollinearVertices collapsed
  if cleaned.length < 3 then [] else
  cleaned

/-- `clipPolyHalfPlane` of `src/geom/polygon.ts`, with the epsilon of the
inside test as an explicit parameter (see `clipEdgeEmit`). -/
def clipPolyHalfPlaneEps (eps : ℚ) (poly : List Vec2) (line : Line2)
    (keepSide : ℚ) : List Vec2 :=
  if poly.length < 3 then [] else
  cleanupPoly (clipPolyRaw eps poly line keepSide)

/-- `clipPolyHalfPlane` of `src/geom/polygon.ts` at the modelled `EPS`. -/
def clipPolyHalfPlane (poly : List Vec2) (line : Line2) (keepSide : ℚ) :
    List Vec2 :=
  clipPolyHalfPlaneEps EPS poly line keepSide

/-- `signedPolyArea` of `src/geom/polygon.ts`: shoelace formula, positive for
counter-clockwise winding. -/
def signedPolyArea (poly : List Vec2) : ℚ :=
  if poly.length < 3 then 0 else
  ((cyclicPairs poly).foldl (fun sum pq => sum + crossZ pq.1 pq.2) 0) * (1 / 2)

/-- `polyArea` of `src/geom/polygon.ts`. -/
def polyArea (poly : List Vec2) : ℚ := |signedPolyArea poly|

/-- `pointInPoly` of `src/geom/polygon.ts`: even-odd ray casting.  The source
adds the global `EPS` to the denominator of the edge-intersection abscissa;
the epsilon is a parameter here (see `clipEdgeEmit`), and `pointInPoly`
instantiates it with the modelled `EPS`. -/
def pointInPolyEps (eps : ℚ) (pt : Vec2) (poly : List Vec2) : Bool :=
  if poly.length < 3 then false else
  (prevPairs poly).foldl
    (fun inside ab =>
      let a := ab.1
      let b := ab.2
      if (decide (a.y > pt.y) != decide (b.y > pt.y)) &&
          decide (pt.x < (b.x - a.x) * (pt.y - a.y) / (b.y - a.y + eps) + a.x)
      then !inside else inside)
    false

/-- `pointInPoly` of `src/geom/polygon.ts` at the modelled `EPS`. -/
def pointInPoly (pt : Vec2) (poly : List Vec2) : Bool :=
  pointInPolyEps EPS pt poly

/-- The per-edge test of `pointInPoly` (the body of its loop) as a standalone
predicate on an edge pair `(current, previous)`; `pointInPolyEps` folds
exactly this predicate over `prevPairs` (see `pointInPolyEps_foldl`). -/
def inPred (eps : ℚ) (pt : Vec2) (ab : Vec2 × Vec2) : Bool :=
  let a := ab.1
  let b := ab.2
  (decide (a.y > pt.y) != decide (b.y > pt.y)) &&
    decide (pt.x < (b.x - a.x) * (pt.y - a.y) / (b.y - a.y + eps) + a.x)

example :
    signedPolyArea [⟨0, 0⟩, ⟨2, 0⟩, ⟨0, 2⟩] = 2 := by
  norm_num [signedPolyArea, cyclicPairs, rotLeft1, crossZ]

example :
    pointInPoly ⟨1, 1⟩ [⟨0, 0⟩, ⟨4, 0⟩, ⟨4, 4⟩, ⟨0, 4⟩] = true := by
  norm_num [pointInPoly, pointInPolyEps, prevPairs, rotRight1, EPS]

example :
    pointInPoly ⟨5, 1⟩ [⟨0, 0⟩, ⟨4, 0⟩, ⟨4, 4⟩, ⟨0, 4⟩] = false := by
  norm_num [pointInPoly, pointInPolyEps, prevPairs, rotRight1, EPS]

/-- Test fixture: a simple (weakly convex) pentagon of width `501/5` and
height `h`, with a redundant vertex `(1/5, 0)` on its bottom edge lying
`1/5` (closer than `VERTEX_COLLAPSE_THRESHOLD`) from the corner `(0, 0)`.
Used to analyse the area loss of `cleanupPoly` after clipping. -/
def pentPoly (h : ℚ) : List Vec2 :=
  [⟨-100, 0⟩, ⟨0, 0⟩, ⟨1/5, 0⟩, ⟨1/5, h⟩, ⟨-100, h⟩]

/-- Test fixture: the vertical line `x = -50` (point `(-50, 0)`, direction
`(0, 1)`), which crosses `pentPoly` cleanly through its interior. -/
def pentLine : Line2 := ⟨⟨-50, 0⟩, ⟨0, 1⟩⟩

/-!  `src/paper/model.ts` -/

/-- `PaperSide` of `src/paper/model.ts`. -/
inductive PaperSide where
  | front
  | back
deriving DecidableEq, Repr

/-- `toggleSide` of `src/paper/model.ts`. -/
def toggleSide : PaperSide → PaperSide
  | .front => .back
  | .back => .front

/-- `PaperStyle` of `src/paper/model.ts`. -/
structure PaperStyle where
  front : String
  back : String
  edge : String
deriving DecidableEq, Repr

/-- `Face` of `src/paper/model.ts`.  Layers are JS numbers holding integers;
they are embedded as `ℤ`. -/
structure Face where
  id : ℕ
  verts : List Vec2
  up : PaperSide
  layer : ℤ
  outer : Bool
deriving DecidableEq, Repr

/-- `Paper` of `src/paper/model.ts`.  The rotation angle `rot` only ever
enters the embedded code through its cosine and sine (the flip axis normal
`(-cos rot, sin rot)` of `commitFlip`), so the embedding stores the pair
`(rotC, rotS) = (cos rot, sin rot)` in place of the angle. -/
structure Paper where
  id : ℕ
  style : PaperStyle
  pos : Vec2
  rotC : ℚ
  rotS : ℚ
  scale : ℚ
  faces : List Face
  baseW : ℚ
  baseH : ℚ
  isDragging : Bool
deriving DecidableEq, Repr

/-- `cloneFace` of `src/paper/model.ts` (vertex-by-vertex copy; a value-level
identity in the pure embedding). -/
def cloneFace (f : Face) : Face :=
  { id := f.id
    verts := f.verts.map (fun v => ⟨v.x, v.y⟩)
    up := f.up
    layer := f.layer
    outer := f.outer }

/-- `makeRectFace` of `src/paper/model.ts`: centered `w ×  h` rectangle.
The id allocator is threaded as the explicit next id. -/
def makeRectFace (faceId : ℕ) (w h : ℚ) (up : PaperSide) (layer : ℤ) : Face :=
  { id := faceId
    verts := [⟨-(w / 2), -(h / 2)⟩, ⟨w / 2, -(h / 2)⟩,
              ⟨w / 2, h / 2⟩, ⟨-(w / 2), h / 2⟩]
    up := up
    layer := layer
    outer := true }

/-- `makePaper` of `src/paper/model.ts` (rotation 0 is the pair `(1, 0)`). -/
def makePaper (paperId faceId : ℕ) (style : PaperStyle) (x y w h : ℚ) : Paper :=
  { id := paperId
    style := style
    pos := ⟨x, y⟩
    rotC := 1
    rotS := 0
    scale := 1
    faces := [makeRectFace faceId w h .front 0]
    baseW := w
    baseH := h
    isDragging := false }

/-!  `src/paper/fold.ts` (embedded in the provided `src/config/options.ts`) -/

/-- `FoldSide` of `src/paper/fold.ts` (`Front = 1`, `Back = -1`). -/
inductive FoldSide where
  | Front
  | Back
deriving DecidableEq, Repr

/-- `FoldAnim` of `src/paper/fold.ts`. -/
structure FoldAnim where
  paperId : ℕ
  progress : ℚ
  durationSeconds : ℚ
  lineLocal : Line2
  foldSide : FoldSide
  keepFaces : List Face
  movingFaces : List Face
  foldedLayer : ℤ
deriving DecidableEq, Repr

/-- `FoldRejection` of `src/paper/fold.ts`. -/
inductive FoldRejection where
  | noIntersection
  | emptyMovingSide
  | emptyStationarySide
deriving DecidableEq, Repr

/-- `FoldBuildResult` of `src/paper/fold.ts`. -/
inductive FoldBuildResult where
  | built (anim : FoldAnim)
  | rejected (reason : FoldRejection)
deriving DecidableEq, Repr

/-- `MIN_FACE_AREA` of `src/paper/fold.ts`: clipped pieces at or below this
area are discarded as slivers. -/
def MIN_FACE_AREA : ℚ := 4

/-- `FOLD_DURATION_SECONDS` of `src/paper/fold.ts`. -/
def FOLD_DURATION_SECONDS : ℚ := 46 / 100

/-- `determineFoldSide` of `src/paper/fold.ts`: the stubbed default policy
always moves the positive side of the line. -/
def determineFoldSide (lineDirScreen hingeScreen : Vec2) : FoldSide :=
  let _ := lineDirScreen
  let _ := hingeScreen
  FoldSide.Front

/-- Maximum layer of a face list computed as the source does
(`Math.max` folded from `0`). -/
def maxLayerOf (faces : List Face) : ℤ :=
  faces.foldl (fun m f => max m f.layer) 0

/-- The clipping loop of `buildFoldAnim` (`src/paper/fold.ts` lines 143-170):
clip every face to both half planes, discard sliver pieces, give surviving
pieces fresh ids from the threaded counter (`deps.nextFaceId`), and route them
to the keep / moving lists according to `foldSide`.  Returns
`(keepFaces, movingFaces, next counter)`. -/
def foldPieces (line : Line2) (foldSide : FoldSide) :
    List Face → ℕ → List Face × List Face × ℕ
  | [], ctr => ([], [], ctr)
  | f :: rest, ctr =>
    let pos := clipPolyHalfPlane f.verts line 1
    let neg := clipPolyHalfPlane f.verts line (-1)
    let posOk := polyArea pos > MIN_FACE_AREA
    let negOk := polyArea neg > MIN_FACE_AREA
    let step1 : List Face × List Face × ℕ :=
      if posOk then
        let piece : Face :=
          { id := ctr, verts := pos, up := f.up, layer := f.layer, outer := f.outer }
        match foldSide with
        | .Front => ([], [piece], ctr + 1)
        | .Back => ([piece], [], ctr + 1)
      else ([], [], ctr)
    let step2 : List Face × List Face × ℕ :=
      if negOk then
        let piece : Face :=
          { id := step1.2.2, verts := neg, up := f.up, layer := f.layer, outer := f.outer }
        match foldSide with
        | .Back => ([], [piece], step1.2.2 + 1)
        | .Front => ([piece], [], step1.2.2 + 1)
      else ([], [], step1.2.2)
    let restOut := foldPieces line foldSide rest step2.2.2
    (step1.1 ++ step2.1 ++ restOut.1, step1.2.1 ++ step2.2.1 ++ restOut.2.1,
      restOut.2.2)

/-- `buildFoldAnim` of `src/paper/fold.ts`.  The screen-to-local preamble of
the source (lines 129-131: `screenToLocal` of the hinge and
`norm2 (rotate2 lineDirScreen (-paper.rot))` for the direction) re-expresses
the fold line in sheet-local coordinates using trigonometric normalisation;
the embedding takes that local line directly, which is the quantity every
downstream computation consumes.  The id allocator is threaded as the first
fresh id; the source performs no write to `paper`, so the paper after the
call — returned as the second component — is the input itself. -/
def buildFoldAnim (paper : Paper) (lineLocal : Line2)
    (foldSideOverride : Option FoldSide) (firstId : ℕ) :
    FoldBuildResult × Paper :=
  let foldSide := foldSideOverride.getD (determineFoldSide ⟨0, 0⟩ ⟨0, 0⟩)
  let maxLayer := maxLayerOf paper.faces
  let foldedLayer := maxLayer + 1
  let pieces := foldPieces lineLocal foldSide paper.faces firstId
  let keepFaces := pieces.1
  let movingFaces := pieces.2.1
  if movingFaces = [] ∧ keepFaces = [] then
    (.rejected .noIntersection, paper)
  else if movingFaces = [] then
    (.rejected .emptyMovingSide, paper)
  else if keepFaces = [] then
    (.rejected .emptyStationarySide, paper)
  else
    (.built
      { paperId := paper.id
        progress := 0
        durationSeconds := FOLD_DURATION_SECONDS
        lineLocal := lineLocal
        foldSide := foldSide
        keepFaces := keepFaces
        movingFaces := movingFaces
        foldedLayer := foldedLayer }, paper)

/-- `FACE_KEY_PRECISION` of `src/paper/fold.ts` (2 decimal places). -/
def FACE_KEY_PRECISION : ℚ := 100

/-- `round2` of `src/paper/fold.ts`: round a coordinate to the face-key
precision.  `Math.round` rounds half toward positive infinity, which is
`round` on `ℚ`; the result is kept as the exact multiple of `1/100`. -/
def round2 (v : ℚ) : ℚ := (round (v * FACE_KEY_PRECISION) : ℤ) / FACE_KEY_PRECISION

/-- `ensureCCW` of `src/paper/fold.ts`: reverse the vertex list when the
signed area is negative. -/
def ensureCCW (verts : List Vec2) : List Vec2 :=
  if signedPolyArea verts < 0 then verts.reverse else verts

/-- `findLexicographicMinIndex` of `src/paper/fold.ts`: index of the first
vertex minimal by `y`, then `x` (strict comparisons, so the first minimum
wins). -/
def findLexicographicMinIndex (verts : List Vec2) : ℕ :=
  (List.range verts.length).foldl
    (fun minIdx i =>
      match verts[i]?, verts[minIdx]? with
      | some curr, some mn =>
        if curr.y < mn.y ∨ (curr.y = mn.y ∧ curr.x < mn.x) then i else minIdx
      | _, _ => minIdx)
    0

/-- `rotateArray` of `src/paper/fold.ts`: rotate so element `startIdx` comes
first (indices taken modulo the length, as the source does). -/
def rotateArray {α : Type} (arr : List α) (startIdx : ℕ) : List α :=
  (List.range arr.length).filterMap (fun i => arr[(startIdx + i) % arr.length]?)

/-- `normalizeVerts` of `src/paper/fold.ts`: force CCW winding, then start at
the lexicographically smallest vertex. -/
def normalizeVerts (verts : List Vec2) : List Vec2 :=
  if verts.length < 2 then verts else
  let ccw := ensureCCW verts
  rotateArray ccw (findLexicographicMinIndex ccw)

/-- `faceKey` of `src/paper/fold.ts`.  The source builds a string
`up:layer:x1,y1|x2,y2|...` from the rounded normalized vertices (or
`up:layer:empty` for an empty face); the embedding keeps the same data as a
comparable tuple, with `none` playing the role of `"empty"`. -/
def faceKey (face : Face) : PaperSide × ℤ × Option (List (ℚ × ℚ)) :=
  if face.verts = [] then (face.up, face.layer, none)
  else
    (face.up, face.layer,
      some ((normalizeVerts face.verts).map (fun v => (round2 v.x, round2 v.y))))

/-- `dedupeFaces` of `src/paper/fold.ts`: keep the first face for each key.
The source's `Set` of seen keys becomes a list. -/
def dedupeFaces : List Face → List (PaperSide × ℤ × Option (List (ℚ × ℚ))) → List Face
  | [], _ => []
  | f :: rest, seen =>
    let key := faceKey f
    if key ∈ seen then dedupeFaces rest seen
    else f :: dedupeFaces rest (key :: seen)

/-- The transformed moving faces built by `commitFold` (`src/paper/fold.ts`
lines 206-232): vertices reflected across the fold line, visible side toggled,
layer set to `foldedLayer + (maxMovingLayer - layer)`, `outer` cleared, with
fresh sequential ids from the threaded counter. -/
def movingTransformed (anim : FoldAnim) (firstId : ℕ) : List Face :=
  let maxMovingLayer := maxLayerOf anim.movingFaces
  anim.movingFaces.mapIdx
    (fun i f =>
      { id := firstId + i
        verts := f.verts.map (fun p => reflectPoint p anim.lineLocal)
        up := toggleSide f.up
        layer := anim.foldedLayer + (maxMovingLayer - f.layer)
        outer := false })

/-- `commitFold` of `src/paper/fold.ts`: keep faces pass through, moving faces
are transformed, and the deduplicated concatenation replaces the sheet's
faces wholesale. -/
def commitFold (paper : Paper) (anim : FoldAnim) (firstId : ℕ) : Paper :=
  { paper with
      faces := dedupeFaces (anim.keepFaces ++ movingTransformed anim firstId) [] }

/-!  `src/paper/flip.ts` -/

/-- `FLIP_DURATION_SECONDS` of `src/paper/flip.ts`. -/
def FLIP_DURATION_SECONDS : ℚ := 1 / 2

/-- `FlipAnim` of `src/paper/flip.ts`. -/
structure FlipAnim where
  paperId : ℕ
  progress : ℚ
  durationSeconds : ℚ
  originalFaces : List Face
  maxLayer : ℤ
deriving DecidableEq, Repr

/-- `buildFlipAnim` of `src/paper/flip.ts`: always succeeds, captures the max
layer and a deep clone of the faces. -/
def buildFlipAnim (paper : Paper) : FlipAnim :=
  { paperId := paper.id
    progress := 0
    durationSeconds := FLIP_DURATION_SECONDS
    originalFaces := paper.faces.map cloneFace
    maxLayer := maxLayerOf paper.faces }

/-- The bounding-box center of all vertices of all faces, as computed by
`commitFlip` (`src/paper/flip.ts` lines 48-62).  The source starts the folds
from `±Infinity`; over `ℚ` the fold starts from the first vertex, which agrees
whenever there is at least one vertex, and the center is only ever applied to
vertices, so the two models coincide on every face list. -/
def bboxCenter (faces : List Face) : Vec2 :=
  match faces.flatMap Face.verts with
  | [] => ⟨0, 0⟩
  | v :: vs =>
    let minX := vs.foldl (fun m w => min m w.x) v.x
    let maxX := vs.foldl (fun m w => max m w.x) v.x
    let minY := vs.foldl (fun m w => min m w.y) v.y
    let maxY := vs.foldl (fun m w => max m w.y) v.y
    ⟨(minX + maxX) / 2, (minY + maxY) / 2⟩

/-- `commitFlip` of `src/paper/flip.ts`: reflect every vertex across the
rotation-dependent vertical axis through the bounding-box center (axis normal
`(-cos rot, sin rot)`), toggle `up`, invert the layer with the snapshot
`anim.maxLayer`, and mark every face outer. -/
def commitFlip (paper : Paper) (anim : FlipAnim) : Paper :=
  let c := bboxCenter paper.faces
  let nx : ℚ := -paper.rotC
  let ny : ℚ := paper.rotS
  { paper with
      faces := paper.faces.map
        (fun f =>
          { f with
              verts := f.verts.map
                (fun v =>
                  let dx := v.x - c.x
                  let dy := v.y - c.y
                  let dot := dx * nx + dy * ny
                  ⟨v.x - 2 * dot * nx, v.y - 2 * dot * ny⟩)
              up := toggleSide f.up
              layer := anim.maxLayer - f.layer
              outer := true }) }

/-- Build-then-commit flip, twice in a row with no other mutation in between
(the round trip of the flip claim). -/
def doubleFlip (paper : Paper) : Paper :=
  let p1 := commitFlip paper (buildFlipAnim paper)
  commitFlip p1 (buildFlipAnim p1)

/-!  `src/render/paper.ts` (the copy embedded in the provided
`src/config/options.ts`, whose `drawFoldingPaper` uses the half-turn
threshold `progress > 0.5`) -/

/-- 3D vector (source: `Vec3` of `src/math/vec3.ts`). -/
structure Vec3 where
  x : ℚ
  y : ℚ
  z : ℚ
deriving DecidableEq, Repr

/-- Modelled from the spec: `mul3` of `src/math/vec3.ts` (missing from the
provided sources), componentwise scalar multiple. -/
def mul3 (v : Vec3) (s : ℚ) : Vec3 := ⟨v.x * s, v.y * s, v.z * s⟩

/-- Modelled from the spec: `easeInOutCubic` of `src/math/scalars.ts`
(missing from the provided sources): the symmetric slow-fast-slow cubic ease
`t < 1/2 ? 4 t³ : 1 - (2 - 2 t)³ / 2`. -/
def easeInOutCubic (t : ℚ) : ℚ :=
  if t < 1 / 2 then 4 * t ^ 3 else 1 - (2 - 2 * t) ^ 3 / 2

/-- `drawFoldingPaper` (options.ts copy, lines 419-421): the half-turn test.
`progress` here is the eased progress, exactly as in the source
(`const progress = easeInOutCubic(anim.progress)`), and the stack is viewed
from the back once it exceeds `0.5`. -/
def viewingBackOfStack (anim : FoldAnim) : Bool :=
  decide (easeInOutCubic anim.progress > 1 / 2)

/-- `drawFoldingPaper` (options.ts copy, lines 477-481): the visible side of a
moving face during the fold animation — the face's own side until the
half-turn threshold, the opposite side past it, for every moving face alike. -/
def movingVisibleSide (anim : FoldAnim) (f : Face) : PaperSide :=
  if viewingBackOfStack anim then
    match f.up with
    | .front => .back
    | .back => .front
  else f.up

/-- `drawFoldingPaper` (options.ts copy, line 484): the shading normal of a
moving face — the rotated normal until the half-turn threshold, its mirror
image past it. -/
def movingVisibleNormal (anim : FoldAnim) (normalRot : Vec3) : Vec3 :=
  if viewingBackOfStack anim then mul3 normalRot (-1) else normalRot

/-!  The two-phase animation runtime of `src/main.ts` (provided inside
`src/paper/flip.ts`) -/

/-- `FoldRuntime` of `src/main.ts`. -/
inductive FoldRuntime where
  | idle
  | animating (anim : FoldAnim) (hinge : Vec2) (hingeDir : Vec2)
deriving DecidableEq, Repr

/-- `FlipRuntime` of `src/main.ts`. -/
inductive FlipRuntime where
  | idle
  | animating (anim : FlipAnim)
deriving DecidableEq, Repr

/-- Whether a fold runtime is in its animating phase. -/
def FoldRuntime.isAnimating : FoldRuntime → Bool
  | .idle => false
  | .animating _ _ _ => true

/-- Whether a flip runtime is in its animating phase. -/
def FlipRuntime.isAnimating : FlipRuntime → Bool
  | .idle => false
  | .animating _ => true

/-- The fold build attempt of `tick` (`src/main.ts` lines 879-897): when the
fold runtime is idle, the fold trigger is on and was off on the previous tick,
`buildFoldAnim` is attempted and an animation starts on a built result.  The
guard consults only the fold runtime; the flip runtime is passed through
untouched and — exactly as in the source — never inspected. -/
def tickStartFold (foldR : FoldRuntime) (flipR : FlipRuntime)
    (foldedNow deviceFolded : Bool) (buildResult : FoldBuildResult)
    (hinge hingeDir : Vec2) : FoldRuntime × FlipRuntime :=
  if foldR = .idle ∧ foldedNow ∧ ¬deviceFolded then
    match buildResult with
    | .built anim => (.animating anim hinge hingeDir, flipR)
    | .rejected _ => (foldR, flipR)
  else (foldR, flipR)

/-- The flip button handler (`src/main.ts` lines 468-476): ignored while any
animation — fold or flip — is in progress, otherwise starts a flip. -/
def flipClick (foldR : FoldRuntime) (flipR : FlipRuntime) (paper : Paper) :
    FoldRuntime × FlipRuntime :=
  if foldR.isAnimating ∨ flipR.isAnimating then (foldR, flipR)
  else (foldR, .animating (buildFlipAnim paper))

/-- A fold animation and a flip animation being simultaneously in flight. -/
def bothInFlight (s : FoldRuntime × FlipRuntime) : Bool :=
  s.1.isAnimating && s.2.isAnimating

/-!  Claim C7: fold/flip mutual exclusion -/

/-- The flip-side guard does hold: a flip click never starts while any
animation is in progress. -/
theorem flipClick_guarded (foldR : FoldRuntime) (flipR : FlipRuntime)
    (paper : Paper) (h : foldR.isAnimating = true ∨ flipR.isAnimating = true) :
    flipClick foldR flipR paper = (foldR, flipR) := by
  unfold flipClick
  rw [if_pos]
  rcases h with h | h
  · exact Or.inl h
  · exact Or.inr h

/-- C7: the claimed mutual exclusion is violated by the fold build guard of
`tick`: with a flip animation in flight and the fold runtime idle, a fold
trigger (`foldedNow` on its rising edge) still runs `buildFoldAnim` and, on a
built result, starts the fold animation — the guard never consults the flip
runtime — so a `FoldAnim` and a `FlipAnim` are simultaneously in flight. -/
theorem tickStartFold_ignores_flip :
    bothInFlight
      (tickStartFold .idle
        (.animating ⟨1, 1 / 2, FLIP_DURATION_SECONDS, [], 0⟩)
        true false
        (.built ⟨1, 0, FOLD_DURATION_SECONDS, ⟨⟨0, 0⟩, ⟨0, 1⟩⟩, .Front,
          [⟨1, [], .front, 0, true⟩], [⟨2, [], .front, 0, true⟩], 1⟩)
        ⟨0, 0⟩ ⟨0, 1⟩) = true := by
  unfold tickStartFold bothInFlight
  rw [if_pos (by exact ⟨rfl, by simp⟩)]
  rfl

/-!  Claim C8: render half-turn threshold -/

/-- On `[0, 1]` the symmetric cubic ease crosses one half exactly at one half:
the eased progress exceeds `1/2` iff the raw progress does. -/
theorem easeInOutCubic_gt_half_iff {t : ℚ} (h0 : 0 ≤ t) (h1 : t ≤ 1) :
    easeInOutCubic t > 1 / 2 ↔ t > 1 / 2 := by
  unfold easeInOutCubic
  split_ifs with h
  · constructor
    · intro hgt
      exfalso
      nlinarith [sq_nonneg t, sq_nonneg (t - 1 / 2), sq_nonneg (t + 1 / 2)]
    · intro hgt
      exact absurd hgt (by linarith)
  · push_neg at h
    constructor
    · intro hgt
      by_contra hle
      push_neg at hle
      have ht : t = 1 / 2 := le_antisymm hle h
      rw [ht] at hgt
      norm_num at hgt
    · intro hgt
      nlinarith [sq_nonneg (1 - t), sq_nonneg (2 - 2 * t)]

/-- C8: during a fold animation, every moving face's visible side and shading
normal are swapped to the opposite side and the mirrored normal exactly when
the animation progress exceeds `0.5` — for every rotated normal alike, i.e.
the decision is the half-turn threshold, not a sign test on the normal. -/
theorem drawFoldingPaper_half_turn_threshold (anim : FoldAnim) (f : Face)
    (normalRot : Vec3) (h0 : 0 ≤ anim.progress) (h1 : anim.progress ≤ 1) :
    (movingVisibleSide anim f =
      if anim.progress > 1 / 2 then toggleSide f.up else f.up)
  ∧ (movingVisibleNormal anim normalRot =
      if anim.progress > 1 / 2 then mul3 normalRot (-1) else normalRot) := by
  have hiff : easeInOutCubic anim.progress > 1 / 2 ↔ anim.progress > 1 / 2 :=
    easeInOutCubic_gt_half_iff h0 h1
  have hview : viewingBackOfStack anim = decide (anim.progress > 1 / 2) := by
    unfold viewingBackOfStack
    simp only [decide_eq_decide]
    exact hiff
  constructor
  · unfold movingVisibleSide
    rw [hview]
    simp only [decide_eq_true_eq]
    by_cases hc : anim.progress > 1 / 2
    · rw [if_pos hc, if_pos hc]
      cases f.up <;> rfl
    · rw [if_neg hc, if_neg hc]
  · unfold movingVisibleNormal
    rw [hview]
    simp only [decide_eq_true_eq]

/-- Witness for C8 at progress `3/4`: past the half turn the front face shows
its back and the normal is mirrored. -/
theorem drawFoldingPaper_half_turn_threshold_witness :
    movingVisibleSide
        ⟨1, 3 / 4, FOLD_DURATION_SECONDS, ⟨⟨0, 0⟩, ⟨0, 1⟩⟩, .Front, [], [], 1⟩
        ⟨1, [], .front, 0, true⟩ = .back
  ∧ movingVisibleNormal
        ⟨1, 3 / 4, FOLD_DURATION_SECONDS, ⟨⟨0, 0⟩, ⟨0, 1⟩⟩, .Front, [], [], 1⟩
        ⟨0, 0, 1⟩ = ⟨0, 0, -1⟩ := by
  have h := drawFoldingPaper_half_turn_threshold
    ⟨1, 3 / 4, FOLD_DURATION_SECONDS, ⟨⟨0, 0⟩, ⟨0, 1⟩⟩, .Front, [], [], 1⟩
    ⟨1, [], .front, 0, true⟩ ⟨0, 0, 1⟩ (by norm_num) (by norm_num)
  obtain ⟨h1, h2⟩ := h
  have hgt : ((3 : ℚ) / 4 > 1 / 2) := by norm_num
  refine ⟨?_, ?_⟩
  · rw [h1]
    rw [if_pos hgt]
    rfl
  · rw [h2]
    rw [if_pos hgt]
    simp [mul3]

/-!  Claim C2: fold build rejection policy -/

/-- `buildFoldAnim` never writes to the paper: the paper after the call is
the input paper, on every path. -/
theorem buildFoldAnim_paper_unchanged (paper : Paper) (line : Line2)
    (sideOpt : Option FoldSide) (firstId : ℕ) :
    (buildFoldAnim paper line sideOpt firstId).2 = paper := by
  unfold buildFoldAnim
  dsimp only
  split_ifs <;> rfl

/-- C2: the rejection reasons of `buildFoldAnim` characterise the emptiness of
the clipped piece lists exactly — `noIntersection` iff both the moving and the
keep list are empty after clipping and sliver removal, `emptyMovingSide` iff
only the moving list is empty, `emptyStationarySide` iff only the keep list is
empty — and every rejection leaves the paper untouched and produces no
animation. -/
theorem buildFoldAnim_rejection_policy (paper : Paper) (line : Line2)
    (sideOpt : Option FoldSide) (firstId : ℕ) :
    let r := buildFoldAnim paper line sideOpt firstId
    let pieces := foldPieces line
      (sideOpt.getD (determineFoldSide ⟨0, 0⟩ ⟨0, 0⟩)) paper.faces firstId
    (r.1 = .rejected .noIntersection ↔ pieces.2.1 = [] ∧ pieces.1 = [])
  ∧ (r.1 = .rejected .emptyMovingSide ↔ pieces.2.1 = [] ∧ pieces.1 ≠ [])
  ∧ (r.1 = .rejected .emptyStationarySide ↔ pieces.2.1 ≠ [] ∧ pieces.1 = [])
  ∧ (∀ reason, r.1 = .rejected reason →
      r.2 = paper ∧ ∀ anim, r.1 ≠ .built anim) := by
  intro r pieces
  have hr : r =
      (if pieces.2.1 = [] ∧ pieces.1 = [] then
        (.rejected .noIntersection, paper)
      else if pieces.2.1 = [] then (.rejected .emptyMovingSide, paper)
      else if pieces.1 = [] then (.rejected .emptyStationarySide, paper)
      else
        (.built
          { paperId := paper.id
            progress := 0
            durationSeconds := FOLD_DURATION_SECONDS
            lineLocal := line
            foldSide := sideOpt.getD (determineFoldSide ⟨0, 0⟩ ⟨0, 0⟩)
            keepFaces := pieces.1
            movingFaces := pieces.2.1
            foldedLayer := maxLayerOf paper.faces + 1 }, paper)) := rfl
  by_cases hm : pieces.2.1 = ([] : List Face) <;>
    by_cases hk : pieces.1 = ([] : List Face) <;>
    simp [hr, hm, hk]

/-- Witness for C2: a one-face paper whose rectangle straddles a vertical
line through the origin has both piece lists nonempty, and the rejection
characterisation rules out `noIntersection` there. -/
theorem buildFoldAnim_rejection_policy_witness :
    let paper := makePaper 1 1 ⟨"#ffffff", "#f0f0f0", "rgba"⟩ 0 0 20 20
    let r := buildFoldAnim paper ⟨⟨0, 0⟩, ⟨0, 1⟩⟩ none 2
    r.1 ≠ .rejected .noIntersection ∧ r.2 = paper := by
  intro paper r
  have h := buildFoldAnim_rejection_policy paper ⟨⟨0, 0⟩, ⟨0, 1⟩⟩ none 2
  obtain ⟨h1, _, _, _⟩ := h
  constructor
  · intro hcontra
    have hboth := h1.mp hcontra
    have hpieces : (foldPieces ⟨⟨0, 0⟩, ⟨0, 1⟩⟩
        ((none : Option FoldSide).getD (determineFoldSide ⟨0, 0⟩ ⟨0, 0⟩))
        paper.faces 2).2.1 ≠ ([] : List Face) := by
      show (foldPieces ⟨⟨0, 0⟩, ⟨0, 1⟩⟩ .Front paper.faces 2).2.1 ≠ []
      norm_num [paper, makePaper, makeRectFace, foldPieces, clipPolyHalfPlane,
        clipPolyHalfPlaneEps, clipPolyRaw, cleanupPoly, collapseNearbyVertices,
        removeCollinearVertices, clipEdgeEmit, signedDistanceToLine, dot2, sub2,
        perp2, lerp, EPS, cyclicPairs, rotLeft1, rotRight1, crossZ,
        VERTEX_COLLAPSE_THRESHOLD, COLLINEARITY_THRESHOLD, polyArea,
        signedPolyArea, MIN_FACE_AREA, List.foldl, List.filterMap]
    exact hpieces hboth.1
  · exact buildFoldAnim_paper_unchanged paper ⟨⟨0, 0⟩, ⟨0, 1⟩⟩ none 2

/-!  Shared lemmas about `foldPieces`, `maxLayerOf` and `dedupeFaces` -/

theorem foldl_max_init_le (faces : List Face) :
    ∀ init : ℤ, init ≤ faces.foldl (fun m f => max m f.layer) init := by
  induction faces with
  | nil => intro init; simp
  | cons g t ih =>
    intro init
    calc init ≤ max init g.layer := le_max_left _ _
    _ ≤ t.foldl (fun m f => max m f.layer) (max init g.layer) := ih _

theorem layer_le_foldl_max (faces : List Face) :
    ∀ (init : ℤ) (f : Face), f ∈ faces →
      f.layer ≤ faces.foldl (fun m f => max m f.layer) init := by
  induction faces with
  | nil => intro _ _ h; exact absurd h (List.not_mem_nil _)
  | cons g t ih =>
    intro init f hf
    rcases List.mem_cons.mp hf with rfl | hf
    · calc f.layer ≤ max init f.layer := le_max_right _ _
      _ ≤ t.foldl (fun m f => max m f.layer) (max init f.layer) :=
        foldl_max_init_le t _
    · exact ih (max init g.layer) f hf

theorem le_maxLayerOf {f : Face} {faces : List Face} (h : f ∈ faces) :
    f.layer ≤ maxLayerOf faces :=
  layer_le_foldl_max faces 0 f h

theorem maxLayerOf_nonneg (faces : List Face) : 0 ≤ maxLayerOf faces :=
  foldl_max_init_le faces 0

/-- One step of the `buildFoldAnim` clipping loop, in solved form: the head
face contributes at most one keep piece and at most one moving piece, with
fresh consecutive ids and the parent's `up`/`layer`/`outer`, ahead of the
pieces of the remaining faces. -/
theorem foldPieces_cons_eq (line : Line2) (side : FoldSide) (f : Face)
    (rest : List Face) (c : ℕ) :
    ∃ (newK newM : List Face) (c1 : ℕ),
      foldPieces line side (f :: rest) c =
        (newK ++ (foldPieces line side rest c1).1,
         newM ++ (foldPieces line side rest c1).2.1,
         (foldPieces line side rest c1).2.2)
    ∧ c ≤ c1
    ∧ (∀ g ∈ newK ++ newM,
        (c ≤ g.id ∧ g.id < c1) ∧ g.up = f.up ∧ g.layer = f.layer ∧
          g.outer = f.outer)
    ∧ ((newK ++ newM).map Face.id).Nodup := by
  by_cases hp : polyArea (clipPolyHalfPlane f.verts line 1) > MIN_FACE_AREA <;>
    by_cases hn : polyArea (clipPolyHalfPlane f.verts line (-1)) > MIN_FACE_AREA <;>
    cases side
  · refine ⟨[⟨c + 1, clipPolyHalfPlane f.verts line (-1), f.up, f.layer, f.outer⟩],
      [⟨c, clipPolyHalfPlane f.verts line 1, f.up, f.layer, f.outer⟩], c + 1 + 1,
      ?_, by omega, ?_, by simp⟩
    · simp only [foldPieces, if_pos hp, if_pos hn, List.append_assoc,
        List.nil_append, List.append_nil]
    · intro g hg
      rcases List.mem_append.mp hg with hg | hg <;>
        simp only [List.mem_singleton] at hg <;> subst hg <;>
        exact ⟨by dsimp only; omega, rfl, rfl, rfl⟩
  · refine ⟨[⟨c, clipPolyHalfPlane f.verts line 1, f.up, f.layer, f.outer⟩],
      [⟨c + 1, clipPolyHalfPlane f.verts line (-1), f.up, f.layer, f.outer⟩], c + 1 + 1,
      ?_, by omega, ?_, by simp⟩
    · simp only [foldPieces, if_pos hp, if_pos hn, List.append_assoc,
        List.nil_append, List.append_nil]
    · intro g hg
      rcases List.mem_append.mp hg with hg | hg <;>
        simp only [List.mem_singleton] at hg <;> subst hg <;>
        exact ⟨by dsimp only; omega, rfl, rfl, rfl⟩
  · refine ⟨[],
      [⟨c, clipPolyHalfPlane f.verts line 1, f.up, f.layer, f.outer⟩], c + 1,
      ?_, by omega, ?_, by simp⟩
    · simp only [foldPieces, if_pos hp, if_neg hn, List.append_assoc,
        List.nil_append, List.append_nil]
    · intro g hg
      simp only [List.nil_append, List.mem_singleton] at hg
      subst hg
      exact ⟨by dsimp only; omega, rfl, rfl, rfl⟩
  · refine ⟨[⟨c, clipPolyHalfPlane f.verts line 1, f.up, f.layer, f.outer⟩],
      [], c + 1, ?_, by omega, ?_, by simp⟩
    · simp only [foldPieces, if_pos hp, if_neg hn, List.append_assoc,
        List.nil_append, List.append_nil]
    · intro g hg
      simp only [List.append_nil, List.mem_singleton] at hg
      subst hg
      exact ⟨by dsimp only; omega, rfl, rfl, rfl⟩
  · refine ⟨[⟨c, clipPolyHalfPlane f.verts line (-1), f.up, f.layer, f.outer⟩],
      [], c + 1, ?_, by omega, ?_, by simp⟩
    · simp only [foldPieces, if_neg hp, if_pos hn, List.append_assoc,
        List.nil_append, List.append_nil]
    · intro g hg
      simp only [List.append_nil, List.mem_singleton] at hg
      subst hg
      exact ⟨by dsimp only; omega, rfl, rfl, rfl⟩
  · refine ⟨[],
      [⟨c, clipPolyHalfPlane f.verts line (-1), f.up, f.layer, f.outer⟩], c + 1,
      ?_, by omega, ?_, by simp⟩
    · simp only [foldPieces, if_neg hp, if_pos hn, List.append_assoc,
        List.nil_append, List.append_nil]
    · intro g hg
      simp only [List.nil_append, List.mem_singleton] at hg
      subst hg
      exact ⟨by dsimp only; omega, rfl, rfl, rfl⟩
  · refine ⟨[], [], c, ?_, le_refl c, ?_, by simp⟩
    · simp only [foldPieces, if_neg hp, if_neg hn, List.append_assoc,
        List.nil_append, List.append_nil]
    · intro g hg
      simp at hg
  · refine ⟨[], [], c, ?_, le_refl c, ?_, by simp⟩
    · simp only [foldPieces, if_neg hp, if_neg hn, List.append_assoc,
        List.nil_append, List.append_nil]
    · intro g hg
      simp at hg

/-- The `buildFoldAnim` clipping loop only ever creates pieces with fresh,
pairwise distinct ids drawn from the threaded counter, each inheriting its
parent face's `up`, `layer` and `outer`. -/
theorem foldPieces_spec (line : Line2) (side : FoldSide) :
    ∀ (faces : List Face) (c : ℕ),
      c ≤ (foldPieces line side faces c).2.2
    ∧ (∀ f ∈ (foldPieces line side faces c).1 ++ (foldPieces line side faces c).2.1,
        (c ≤ f.id ∧ f.id < (foldPieces line side faces c).2.2)
        ∧ ∃ g ∈ faces, f.up = g.up ∧ f.layer = g.layer ∧ f.outer = g.outer)
    ∧ (((foldPieces line side faces c).1 ++
          (foldPieces line side faces c).2.1).map Face.id).Nodup := by
  intro faces
  induction faces with
  | nil =>
    intro c
    refine ⟨le_refl c, ?_, by simp [foldPieces]⟩
    intro f hf
    simp [foldPieces] at hf
  | cons f rest ih =>
    intro c
    obtain ⟨newK, newM, c1, heq, hc1, hnew, hnodupNew⟩ :=
      foldPieces_cons_eq line side f rest c
    obtain ⟨ihLe, ihMem, ihNodup⟩ := ih c1
    rw [heq]
    dsimp only
    refine ⟨le_trans hc1 ihLe, ?_, ?_⟩
    · intro g hg
      rcases List.mem_append.mp hg with hg | hg
      · rcases List.mem_append.mp hg with hg | hg
        · obtain ⟨⟨hlo, hhi⟩, hup, hlayer, houter⟩ :=
            hnew g (List.mem_append.mpr (Or.inl hg))
          exact ⟨⟨hlo, lt_of_lt_of_le hhi ihLe⟩, f,
            List.mem_cons_self f rest, hup, hlayer, houter⟩
        · obtain ⟨⟨hlo, hhi⟩, g0, hg0, hrest⟩ :=
            ihMem g (List.mem_append.mpr (Or.inl hg))
          exact ⟨⟨le_trans hc1 hlo, hhi⟩, g0, List.mem_cons_of_mem f hg0, hrest⟩
      · rcases List.mem_append.mp hg with hg | hg
        · obtain ⟨⟨hlo, hhi⟩, hup, hlayer, houter⟩ :=
            hnew g (List.mem_append.mpr (Or.inr hg))
          exact ⟨⟨hlo, lt_of_lt_of_le hhi ihLe⟩, f,
            List.mem_cons_self f rest, hup, hlayer, houter⟩
        · obtain ⟨⟨hlo, hhi⟩, g0, hg0, hrest⟩ :=
            ihMem g (List.mem_append.mpr (Or.inr hg))
          exact ⟨⟨le_trans hc1 hlo, hhi⟩, g0, List.mem_cons_of_mem f hg0, hrest⟩
    · have h1 : ((foldPieces line side rest c1).1 ++
          (newM ++ (foldPieces line side rest c1).2.1)).Perm
          (newM ++ ((foldPieces line side rest c1).1 ++
            (foldPieces line side rest c1).2.1)) := by
        rw [← List.append_assoc, ← List.append_assoc]
        exact List.Perm.append_right _ List.perm_append_comm
      have hperm : ((newK ++ newM) ++
          ((foldPieces line side rest c1).1 ++
            (foldPieces line side rest c1).2.1)).Perm
          ((newK ++ (foldPieces line side rest c1).1) ++
            (newM ++ (foldPieces line side rest c1).2.1)) := by
        rw [List.append_assoc, List.append_assoc]
        exact List.Perm.append_left newK h1.symm
      refine (hperm.map Face.id).nodup ?_
      rw [List.map_append]
      refine List.nodup_append.mpr ⟨hnodupNew, ihNodup, ?_⟩
      intro a ha hb
      obtain ⟨g, hg, rfl⟩ := List.mem_map.mp ha
      obtain ⟨g2, hg2, hgid⟩ := List.mem_map.mp hb
      obtain ⟨⟨_, hhi⟩, _⟩ := hnew g hg
      obtain ⟨⟨hlo2, _⟩, _⟩ := ihMem g2 hg2
      omega

/-- On a built result, the animation record's fields are exactly the clipped
piece lists, the fold line, and `maxLayer + 1`. -/
theorem buildFoldAnim_built_inv (paper : Paper) (line : Line2)
    (sideOpt : Option FoldSide) (firstId : ℕ) (anim : FoldAnim)
    (h : (buildFoldAnim paper line sideOpt firstId).1 = .built anim) :
    anim.keepFaces = (foldPieces line
        (sideOpt.getD (determineFoldSide ⟨0, 0⟩ ⟨0, 0⟩)) paper.faces firstId).1
  ∧ anim.movingFaces = (foldPieces line
        (sideOpt.getD (determineFoldSide ⟨0, 0⟩ ⟨0, 0⟩)) paper.faces firstId).2.1
  ∧ anim.foldedLayer = maxLayerOf paper.faces + 1
  ∧ anim.lineLocal = line := by
  have hr0 : buildFoldAnim paper line sideOpt firstId =
      (if (foldPieces line (sideOpt.getD (determineFoldSide ⟨0, 0⟩ ⟨0, 0⟩))
            paper.faces firstId).2.1 = [] ∧
          (foldPieces line (sideOpt.getD (determineFoldSide ⟨0, 0⟩ ⟨0, 0⟩))
            paper.faces firstId).1 = [] then
        (FoldBuildResult.rejected .noIntersection, paper)
      else if (foldPieces line (sideOpt.getD (determineFoldSide ⟨0, 0⟩ ⟨0, 0⟩))
            paper.faces firstId).2.1 = [] then
        (FoldBuildResult.rejected .emptyMovingSide, paper)
      else if (foldPieces line (sideOpt.getD (determineFoldSide ⟨0, 0⟩ ⟨0, 0⟩))
            paper.faces firstId).1 = [] then
        (FoldBuildResult.rejected .emptyStationarySide, paper)
      else
        (FoldBuildResult.built
          { paperId := paper.id
            progress := 0
            durationSeconds := FOLD_DURATION_SECONDS
            lineLocal := line
            foldSide := sideOpt.getD (determineFoldSide ⟨0, 0⟩ ⟨0, 0⟩)
            keepFaces := (foldPieces line
              (sideOpt.getD (determineFoldSide ⟨0, 0⟩ ⟨0, 0⟩)) paper.faces firstId).1
            movingFaces := (foldPieces line
              (sideOpt.getD (determineFoldSide ⟨0, 0⟩ ⟨0, 0⟩)) paper.faces firstId).2.1
            foldedLayer := maxLayerOf paper.faces + 1 }, paper)) := rfl
  rw [hr0] at h
  split_ifs at h
  dsimp only at h
  simp only [FoldBuildResult.built.injEq] at h
  rw [← h]
  exact ⟨rfl, rfl, rfl, rfl⟩

/-!  Claim C10: `buildFoldAnim` is read-only and allocates fresh faces -/

/-- C10: `buildFoldAnim` never mutates the input paper — the paper after the
call is the input, faces, position, rotation and scale included, whether the
result is built or rejected — and on a built result every clipped piece placed
in the animation record is a newly allocated face: the ids, drawn from the
allocator, are at least the threaded first id and pairwise distinct. -/
theorem buildFoldAnim_no_mutation (paper : Paper) (line : Line2)
    (sideOpt : Option FoldSide) (firstId : ℕ) :
    (buildFoldAnim paper line sideOpt firstId).2 = paper
  ∧ ∀ anim, (buildFoldAnim paper line sideOpt firstId).1 = .built anim →
      (∀ f ∈ anim.keepFaces ++ anim.movingFaces, firstId ≤ f.id)
    ∧ ((anim.keepFaces ++ anim.movingFaces).map Face.id).Nodup := by
  refine ⟨buildFoldAnim_paper_unchanged paper line sideOpt firstId, ?_⟩
  intro anim hb
  obtain ⟨hkeep, hmov, _, _⟩ :=
    buildFoldAnim_built_inv paper line sideOpt firstId anim hb
  obtain ⟨_, hmem, hnodup⟩ :=
    foldPieces_spec line (sideOpt.getD (determineFoldSide ⟨0, 0⟩ ⟨0, 0⟩))
      paper.faces firstId
  rw [hkeep, hmov]
  exact ⟨fun f hf => ((hmem f hf).1).1, hnodup⟩


/-- Witness for C10: the square sheet split down the middle, with the id
counter at 5, yields one keep and one moving piece with fresh distinct ids
6 and 5, and the paper itself is returned untouched. -/
theorem buildFoldAnim_no_mutation_witness :
    let paper := makePaper 1 1 ⟨"#ffffff", "#f0f0f0", "rgba"⟩ 0 0 20 20
    let animW : FoldAnim :=
      { paperId := 1
        progress := 0
        durationSeconds := FOLD_DURATION_SECONDS
        lineLocal := ⟨⟨0, 0⟩, ⟨0, 1⟩⟩
        foldSide := .Front
        keepFaces := [⟨6, [⟨0, -10⟩, ⟨10, -10⟩, ⟨10, 10⟩, ⟨0, 10⟩], .front, 0, true⟩]
        movingFaces := [⟨5, [⟨0, -10⟩, ⟨0, 10⟩, ⟨-10, 10⟩, ⟨-10, -10⟩], .front, 0, true⟩]
        foldedLayer := 1 }
    (buildFoldAnim paper ⟨⟨0, 0⟩, ⟨0, 1⟩⟩ none 5).2 = paper
  ∧ 5 ≤ (Face.mk 6 [⟨0, -10⟩, ⟨10, -10⟩, ⟨10, 10⟩, ⟨0, 10⟩] .front 0 true).id
  ∧ ((animW.keepFaces ++ animW.movingFaces).map Face.id).Nodup := by
  intro paper animW
  have hb : (buildFoldAnim paper ⟨⟨0, 0⟩, ⟨0, 1⟩⟩ none 5).1 = .built animW := by
    norm_num [paper, animW, makePaper, makeRectFace, buildFoldAnim, foldPieces,
      determineFoldSide, maxLayerOf, clipPolyHalfPlane, clipPolyHalfPlaneEps,
      clipPolyRaw, cleanupPoly, collapseNearbyVertices, removeCollinearVertices,
      clipEdgeEmit, signedDistanceToLine, dot2, sub2, perp2, lerp, EPS,
      cyclicPairs, rotLeft1, rotRight1, crossZ, VERTEX_COLLAPSE_THRESHOLD,
      COLLINEARITY_THRESHOLD, polyArea, signedPolyArea, MIN_FACE_AREA,
      FOLD_DURATION_SECONDS, List.foldl, List.filterMap]
  have h := buildFoldAnim_no_mutation paper ⟨⟨0, 0⟩, ⟨0, 1⟩⟩ none 5
  refine ⟨h.1, ?_, (h.2 animW hb).2⟩
  exact (h.2 animW hb).1 _ (by simp [animW])

/-!  Shared lemmas about `mapIdx` and `dedupeFaces` -/

theorem forall_mem_zip_mapIdx {α β : Type} (P : α → β → Prop) :
    ∀ (l : List α) (g : ℕ → α → β), (∀ i a, P a (g i a)) →
      ∀ p ∈ l.zip (l.mapIdx g), P p.1 p.2 := by
  intro l
  induction l with
  | nil => intro g _ p hp; simp at hp
  | cons a t ih =>
    intro g hg p hp
    rw [List.mapIdx_cons] at hp
    rcases List.mem_cons.mp hp with rfl | hp
    · exact hg 0 a
    · exact ih (fun i x => g (i + 1) x) (fun i x => hg (i + 1) x) p hp

theorem mem_mapIdx_imp {α β : Type} :
    ∀ (l : List α) (g : ℕ → α → β) (y : β), y ∈ l.mapIdx g →
      ∃ i a, a ∈ l ∧ y = g i a := by
  intro l
  induction l with
  | nil => intro g y hy; simp at hy
  | cons a t ih =>
    intro g y hy
    rw [List.mapIdx_cons] at hy
    rcases List.mem_cons.mp hy with rfl | hy
    · exact ⟨0, a, List.mem_cons_self a t, rfl⟩
    · obtain ⟨i, x, hx, rfl⟩ := ih (fun i x => g (i + 1) x) y hy
      exact ⟨i + 1, x, List.mem_cons_of_mem a hx, rfl⟩

theorem dedupeFaces_sublist :
    ∀ (l : List Face) (seen : List (PaperSide × ℤ × Option (List (ℚ × ℚ)))),
      (dedupeFaces l seen).Sublist l := by
  intro l
  induction l with
  | nil => intro seen; simp [dedupeFaces]
  | cons f rest ih =>
    intro seen
    show (if faceKey f ∈ seen then dedupeFaces rest seen
      else f :: dedupeFaces rest (faceKey f :: seen)).Sublist (f :: rest)
    split_ifs
    · exact (ih seen).trans (List.sublist_cons_self f rest)
    · exact (ih (faceKey f :: seen)).cons₂ f

/-!  Claim C1: commitFold layer reassignment inverts the moving stack -/

/-- C1: for every successful fold build, committing assigns each moving face
the layer `foldedLayer + (maxMovingLayer - l)` where `l` is its pre-commit
layer (pairing each frozen moving face with its transformed image), so any two
moving faces have their order reversed, every transformed moving face sits
strictly above every kept face, and `foldedLayer` is one more than the maximal
pre-fold layer. -/
theorem commitFold_layer_inversion (paper : Paper) (line : Line2)
    (sideOpt : Option FoldSide) (firstId commitId : ℕ) (anim : FoldAnim)
    (h : (buildFoldAnim paper line sideOpt firstId).1 = .built anim) :
    (∀ p ∈ anim.movingFaces.zip (movingTransformed anim commitId),
        p.2.layer = anim.foldedLayer + (maxLayerOf anim.movingFaces - p.1.layer))
  ∧ (∀ f ∈ anim.movingFaces, ∀ g ∈ anim.movingFaces, f.layer < g.layer →
        anim.foldedLayer + (maxLayerOf anim.movingFaces - g.layer) <
          anim.foldedLayer + (maxLayerOf anim.movingFaces - f.layer))
  ∧ (∀ f ∈ movingTransformed anim commitId, ∀ k ∈ anim.keepFaces,
        k.layer < f.layer)
  ∧ anim.foldedLayer = maxLayerOf paper.faces + 1 := by
  obtain ⟨hkeep, hmov, hfl, _⟩ :=
    buildFoldAnim_built_inv paper line sideOpt firstId anim h
  refine ⟨?_, ?_, ?_, hfl⟩
  · exact forall_mem_zip_mapIdx
      (fun (a : Face) (b : Face) => b.layer =
        anim.foldedLayer + (maxLayerOf anim.movingFaces - a.layer))
      anim.movingFaces _ (fun i a => rfl)
  · intro f _ g _ hlt
    omega
  · intro f hf k hk
    obtain ⟨i, a, ha, rfl⟩ := mem_mapIdx_imp anim.movingFaces _ f hf
    have hamax : a.layer ≤ maxLayerOf anim.movingFaces := le_maxLayerOf ha
    have hkmax : k.layer ≤ maxLayerOf paper.faces := by
      obtain ⟨_, hmem, _⟩ :=
        foldPieces_spec line (sideOpt.getD (determineFoldSide ⟨0, 0⟩ ⟨0, 0⟩))
          paper.faces firstId
      obtain ⟨_, g0, hg0, _, hlayer, _⟩ := hmem k (by
        rw [hkeep] at hk
        exact List.mem_append.mpr (Or.inl hk))
      rw [hlayer]
      exact le_maxLayerOf hg0
    show k.layer <
      anim.foldedLayer + (maxLayerOf anim.movingFaces - a.layer)
    omega

/-- Witness for C1: the square sheet split down the middle; the moving half
(pre-commit layer 0) is reassigned layer `foldedLayer + (0 - 0) = 1`,
strictly above the kept half's layer `0`. -/
theorem commitFold_layer_inversion_witness :
    let paper := makePaper 1 1 ⟨"#ffffff", "#f0f0f0", "rgba"⟩ 0 0 20 20
    let animW : FoldAnim :=
      { paperId := 1
        progress := 0
        durationSeconds := FOLD_DURATION_SECONDS
        lineLocal := ⟨⟨0, 0⟩, ⟨0, 1⟩⟩
        foldSide := .Front
        keepFaces := [⟨6, [⟨0, -10⟩, ⟨10, -10⟩, ⟨10, 10⟩, ⟨0, 10⟩], .front, 0, true⟩]
        movingFaces := [⟨5, [⟨0, -10⟩, ⟨0, 10⟩, ⟨-10, 10⟩, ⟨-10, -10⟩], .front, 0, true⟩]
        foldedLayer := 1 }
    let mfW : Face := ⟨5, [⟨0, -10⟩, ⟨0, 10⟩, ⟨-10, 10⟩, ⟨-10, -10⟩], .front, 0, true⟩
    let tfW : Face := ⟨7, [⟨0, -10⟩, ⟨0, 10⟩, ⟨10, 10⟩, ⟨10, -10⟩], .back, 1, false⟩
    tfW.layer = animW.foldedLayer + (maxLayerOf animW.movingFaces - mfW.layer)
  ∧ (Face.mk 6 [⟨0, -10⟩, ⟨10, -10⟩, ⟨10, 10⟩, ⟨0, 10⟩] .front 0 true).layer < tfW.layer
  ∧ animW.foldedLayer = maxLayerOf paper.faces + 1 := by
  intro paper animW mfW tfW
  have hb : (buildFoldAnim paper ⟨⟨0, 0⟩, ⟨0, 1⟩⟩ none 5).1 = .built animW := by
    norm_num [paper, animW, makePaper, makeRectFace, buildFoldAnim, foldPieces,
      determineFoldSide, maxLayerOf, clipPolyHalfPlane, clipPolyHalfPlaneEps,
      clipPolyRaw, cleanupPoly, collapseNearbyVertices, removeCollinearVertices,
      clipEdgeEmit, signedDistanceToLine, dot2, sub2, perp2, lerp, EPS,
      cyclicPairs, rotLeft1, rotRight1, crossZ, VERTEX_COLLAPSE_THRESHOLD,
      COLLINEARITY_THRESHOLD, polyArea, signedPolyArea, MIN_FACE_AREA,
      FOLD_DURATION_SECONDS, List.foldl, List.filterMap]
  have h := commitFold_layer_inversion paper ⟨⟨0, 0⟩, ⟨0, 1⟩⟩ none 5 7 animW hb
  have htf : movingTransformed animW 7 = [tfW] := by
    norm_num [animW, tfW, movingTransformed, maxLayerOf, reflectPoint, perp2,
      dot2, sub2, toggleSide, List.mapIdx_cons, List.mapIdx_nil]
  refine ⟨?_, ?_, h.2.2.2⟩
  · exact h.1 (mfW, tfW) (by rw [htf]; simp [animW, mfW])
  · exact h.2.2.1 tfW (by rw [htf]; simp) _ (by simp [animW])

/-!  Claim C4: commitFold transforms moving faces, keeps the rest -/

/-- C4: in `commitFold`, every moving face is reflected vertex-by-vertex
across the fold line, its `up` is toggled unconditionally — by the same
formula whatever its `outer` flag — and it is marked `outer = false`;
the committed face list is a sublist of the kept faces followed by those
transformed moving faces, so kept faces pass through unchanged and every
committed face is either a kept face or a transformed moving face. -/
theorem commitFold_transform (paper : Paper) (anim : FoldAnim)
    (commitId : ℕ) :
    ((commitFold paper anim commitId).faces).Sublist
      (anim.keepFaces ++ movingTransformed anim commitId)
  ∧ (∀ p ∈ anim.movingFaces.zip (movingTransformed anim commitId),
        p.2.verts = p.1.verts.map (fun v => reflectPoint v anim.lineLocal)
      ∧ p.2.up = toggleSide p.1.up
      ∧ p.2.outer = false)
  ∧ (∀ f ∈ (commitFold paper anim commitId).faces,
        f ∈ anim.keepFaces ∨ f ∈ movingTransformed anim commitId) := by
  have hsub : ((commitFold paper anim commitId).faces).Sublist
      (anim.keepFaces ++ movingTransformed anim commitId) :=
    dedupeFaces_sublist _ []
  refine ⟨hsub, ?_, ?_⟩
  · exact forall_mem_zip_mapIdx
      (fun (a : Face) (b : Face) =>
        b.verts = a.verts.map (fun v => reflectPoint v anim.lineLocal) ∧
        b.up = toggleSide a.up ∧ b.outer = false)
      anim.movingFaces _ (fun i a => ⟨rfl, rfl, rfl⟩)
  · intro f hf
    exact List.mem_append.mp (hsub.mem hf)

/-- Witness for C4: committing the square middle fold reflects the moving
half across the vertical line (x negated), toggles its side to back, and
clears `outer`. -/
theorem commitFold_transform_witness :
    let animW : FoldAnim :=
      { paperId := 1
        progress := 0
        durationSeconds := FOLD_DURATION_SECONDS
        lineLocal := ⟨⟨0, 0⟩, ⟨0, 1⟩⟩
        foldSide := .Front
        keepFaces := [⟨6, [⟨0, -10⟩, ⟨10, -10⟩, ⟨10, 10⟩, ⟨0, 10⟩], .front, 0, true⟩]
        movingFaces := [⟨5, [⟨0, -10⟩, ⟨0, 10⟩, ⟨-10, 10⟩, ⟨-10, -10⟩], .front, 0, true⟩]
        foldedLayer := 1 }
    let mfW : Face := ⟨5, [⟨0, -10⟩, ⟨0, 10⟩, ⟨-10, 10⟩, ⟨-10, -10⟩], .front, 0, true⟩
    let tfW : Face := ⟨7, [⟨0, -10⟩, ⟨0, 10⟩, ⟨10, 10⟩, ⟨10, -10⟩], .back, 1, false⟩
    tfW.verts = mfW.verts.map (fun v => reflectPoint v animW.lineLocal)
  ∧ tfW.up = toggleSide mfW.up
  ∧ tfW.outer = false := by
  intro animW mfW tfW
  have htf : movingTransformed animW 7 = [tfW] := by
    norm_num [animW, tfW, movingTransformed, maxLayerOf, reflectPoint, perp2,
      dot2, sub2, toggleSide, List.mapIdx_cons, List.mapIdx_nil]
  have h := (commitFold_transform
      (makePaper 1 1 ⟨"#ffffff", "#f0f0f0", "rgba"⟩ 0 0 20 20) animW 7).2.1
      (mfW, tfW) (by rw [htf]; simp [animW, mfW])
  exact ⟨h.1, h.2.1, h.2.2⟩

/-!  Shared lemmas: clipping a polygon that lies entirely on one side -/

theorem foldl_append_emit {α β : Type} (g : α → List β) :
    ∀ (l : List α) (init : List β),
      l.foldl (fun out ab => out ++ g ab) init = init ++ l.flatMap g := by
  intro l
  induction l with
  | nil => intro init; simp
  | cons a t ih =>
    intro init
    rw [List.foldl_cons, ih, List.flatMap_cons, List.append_assoc]

theorem clipPolyRaw_eq_flatMap (eps : ℚ) (poly : List Vec2) (line : Line2)
    (keepSide : ℚ) :
    clipPolyRaw eps poly line keepSide =
      (cyclicPairs poly).flatMap
        (fun ab => clipEdgeEmit eps line keepSide ab.1 ab.2) := by
  unfold clipPolyRaw
  rw [foldl_append_emit]
  rfl

theorem flatMap_eq_map_of_mem {α β : Type} (l : List α) (g : α → List β)
    (f : α → β) (h : ∀ a ∈ l, g a = [f a]) : l.flatMap g = l.map f := by
  induction l with
  | nil => rfl
  | cons a t ih =>
    rw [List.flatMap_cons, h a (List.mem_cons_self a t),
      ih (fun x hx => h x (List.mem_cons_of_mem a hx)), List.map_cons]
    rfl

theorem flatMap_eq_nil_of_mem {α β : Type} (l : List α) (g : α → List β)
    (h : ∀ a ∈ l, g a = []) : l.flatMap g = [] := by
  induction l with
  | nil => rfl
  | cons a t ih =>
    rw [List.flatMap_cons, h a (List.mem_cons_self a t),
      ih (fun x hx => h x (List.mem_cons_of_mem a hx))]
    rfl

theorem rotLeft1_length {α : Type} (l : List α) :
    (rotLeft1 l).length = l.length := by
  cases l with
  | nil => rfl
  | cons a t => simp [rotLeft1]

theorem mem_rotLeft1 {α : Type} {a : α} {l : List α} :
    a ∈ rotLeft1 l ↔ a ∈ l := by
  cases l with
  | nil => simp [rotLeft1]
  | cons b t =>
    simp only [rotLeft1, List.mem_append, List.mem_singleton, List.mem_cons]
    tauto

theorem map_snd_cyclicPairs {α : Type} (l : List α) :
    (cyclicPairs l).map Prod.snd = rotLeft1 l := by
  unfold cyclicPairs
  exact List.map_snd_zip l (rotLeft1 l) (le_of_eq (rotLeft1_length l))

theorem clipEdgeEmit_both_in {eps : ℚ} {line : Line2} {s : ℚ} {a b : Vec2}
    (ha : signedDistanceToLine a line * s ≥ -eps)
    (hb : signedDistanceToLine b line * s ≥ -eps) :
    clipEdgeEmit eps line s a b = [b] := by
  unfold clipEdgeEmit
  rw [if_pos ⟨ha, hb⟩]

theorem clipEdgeEmit_both_out {eps : ℚ} {line : Line2} {s : ℚ} {a b : Vec2}
    (ha : ¬signedDistanceToLine a line * s ≥ -eps)
    (hb : ¬signedDistanceToLine b line * s ≥ -eps) :
    clipEdgeEmit eps line s a b = [] := by
  unfold clipEdgeEmit
  rw [if_neg (fun hc => ha hc.1), if_neg (fun hc => ha hc.1),
    if_neg (fun hc => hb hc.2)]

/-- A polygon with every vertex inside the half plane (up to the epsilon
slack) is emitted unchanged — as its one-step rotation, since the
Sutherland-Hodgman loop emits the head of each edge. -/
theorem clipPolyRaw_all_in {eps : ℚ} {poly : List Vec2} {line : Line2}
    {s : ℚ} (h : ∀ v ∈ poly, signedDistanceToLine v line * s ≥ -eps) :
    clipPolyRaw eps poly line s = rotLeft1 poly := by
  rw [clipPolyRaw_eq_flatMap, ← map_snd_cyclicPairs poly]
  refine flatMap_eq_map_of_mem _ _ _ ?_
  intro ab hab
  have hmem := List.of_mem_zip hab
  exact clipEdgeEmit_both_in (h ab.1 hmem.1) (h ab.2 (mem_rotLeft1.mp hmem.2))

/-- A polygon with every vertex strictly outside the half plane is clipped
away entirely. -/
theorem clipPolyRaw_all_out {eps : ℚ} {poly : List Vec2} {line : Line2}
    {s : ℚ} (h : ∀ v ∈ poly, ¬signedDistanceToLine v line * s ≥ -eps) :
    clipPolyRaw eps poly line s = [] := by
  rw [clipPolyRaw_eq_flatMap]
  refine flatMap_eq_nil_of_mem _ _ ?_
  intro ab hab
  have hmem := List.of_mem_zip hab
  exact clipEdgeEmit_both_out (h ab.1 hmem.1) (h ab.2 (mem_rotLeft1.mp hmem.2))

/-- Forward directions of the rejection dispatch of `buildFoldAnim`. -/
theorem buildFoldAnim_rejects_of_pieces (paper : Paper) (line : Line2)
    (sideOpt : Option FoldSide) (firstId : ℕ) :
    let pieces := foldPieces line
      (sideOpt.getD (determineFoldSide ⟨0, 0⟩ ⟨0, 0⟩)) paper.faces firstId
    (pieces.2.1 = [] → pieces.1 = [] →
      (buildFoldAnim paper line sideOpt firstId).1 = .rejected .noIntersection)
  ∧ (pieces.2.1 = [] → pieces.1 ≠ [] →
      (buildFoldAnim paper line sideOpt firstId).1 = .rejected .emptyMovingSide)
  ∧ (pieces.2.1 ≠ [] → pieces.1 = [] →
      (buildFoldAnim paper line sideOpt firstId).1 =
        .rejected .emptyStationarySide) := by
  intro pieces
  have hr0 : (buildFoldAnim paper line sideOpt firstId).1 =
      (if pieces.2.1 = [] ∧ pieces.1 = [] then
        (FoldBuildResult.rejected .noIntersection, paper)
      else if pieces.2.1 = [] then (FoldBuildResult.rejected .emptyMovingSide, paper)
      else if pieces.1 = [] then
        (FoldBuildResult.rejected .emptyStationarySide, paper)
      else
        (FoldBuildResult.built
          { paperId := paper.id
            progress := 0
            durationSeconds := FOLD_DURATION_SECONDS
            lineLocal := line
            foldSide := sideOpt.getD (determineFoldSide ⟨0, 0⟩ ⟨0, 0⟩)
            keepFaces := pieces.1
            movingFaces := pieces.2.1
            foldedLayer := maxLayerOf paper.faces + 1 }, paper)).1 := rfl
  refine ⟨?_, ?_, ?_⟩
  · intro hm hk
    rw [hr0, if_pos ⟨hm, hk⟩]
  · intro hm hk
    rw [hr0, if_neg (fun hc => hk hc.2), if_pos hm]
  · intro hm hk
    rw [hr0, if_neg (fun hc => hm hc.1), if_neg hm, if_pos hk]

/-!  Claim C3: fold line outside the sheet -/

/-- Counterexample to C3 as stated: for the 200 × 300 rectangular sheet and a
fold line far outside the rectangle along its normal (vertical line at
`x = 10000`), `buildFoldAnim` rejects with `emptyStationarySide`, not with
`noIntersection`: the whole sheet survives on the moving (positive) side and
nothing is left on the keep side, so `noIntersection` — which requires both
lists empty — is not the reason reported. -/
theorem buildFoldAnim_line_outside_counterexample :
    (buildFoldAnim (makePaper 1 1 ⟨"#ffffff", "#f0f0f0", "rgba"⟩ 0 0 200 300)
        ⟨⟨10000, 0⟩, ⟨0, 1⟩⟩ none 2).1 = .rejected .emptyStationarySide
  ∧ FoldRejection.emptyStationarySide ≠ FoldRejection.noIntersection := by
  constructor
  · norm_num [makePaper, makeRectFace, buildFoldAnim, foldPieces,
      determineFoldSide, maxLayerOf, clipPolyHalfPlane, clipPolyHalfPlaneEps,
      clipPolyRaw, cleanupPoly, collapseNearbyVertices, removeCollinearVertices,
      clipEdgeEmit, signedDistanceToLine, dot2, sub2, perp2, lerp, EPS,
      cyclicPairs, rotLeft1, rotRight1, crossZ, VERTEX_COLLAPSE_THRESHOLD,
      COLLINEARITY_THRESHOLD, polyArea, signedPolyArea, MIN_FACE_AREA,
      FOLD_DURATION_SECONDS, List.foldl, List.filterMap]
  · simp

/-- C3 (amended): for the 200 × 300 rectangular sheet and a fold line whose
hinge lies far outside the rectangle's extent along the line's normal
(vertical line at `x = c` with `|c| ≥ 101`, so the line does not cross the
sheet), `buildFoldAnim` rejects — but with `emptyStationarySide` when the
sheet lies entirely on the moving (positive) side of the line, and with
`emptyMovingSide` when it lies entirely on the stationary side; never with
`noIntersection`, which the code reserves for both piece lists empty. -/
theorem buildFoldAnim_line_outside_sheet (c : ℚ) :
    (101 ≤ c →
      (buildFoldAnim (makePaper 1 1 ⟨"#ffffff", "#f0f0f0", "rgba"⟩ 0 0 200 300)
          ⟨⟨c, 0⟩, ⟨0, 1⟩⟩ none 2).1 = .rejected .emptyStationarySide)
  ∧ (c ≤ -101 →
      (buildFoldAnim (makePaper 1 1 ⟨"#ffffff", "#f0f0f0", "rgba"⟩ 0 0 200 300)
          ⟨⟨c, 0⟩, ⟨0, 1⟩⟩ none 2).1 = .rejected .emptyMovingSide) := by
  have hfaces :
      (makePaper 1 1 ⟨"#ffffff", "#f0f0f0", "rgba"⟩ 0 0 200 300).faces =
      [⟨1, [⟨-100, -150⟩, ⟨100, -150⟩, ⟨100, 150⟩, ⟨-100, 150⟩], .front, 0, true⟩] := by
    norm_num [makePaper, makeRectFace]
  have hcleanup :
      cleanupPoly (rotLeft1 [⟨-100, -150⟩, ⟨100, -150⟩, ⟨100, 150⟩, ⟨-100, 150⟩]) =
      [⟨100, -150⟩, ⟨100, 150⟩, ⟨-100, 150⟩, ⟨-100, -150⟩] := by
    norm_num [rotLeft1, cleanupPoly, collapseNearbyVertices,
      removeCollinearVertices, rotRight1, cyclicPairs, crossZ, sub2,
      VERTEX_COLLAPSE_THRESHOLD, COLLINEARITY_THRESHOLD, List.foldl,
      List.filterMap]
  have harea :
      polyArea [⟨100, -150⟩, ⟨100, 150⟩, ⟨-100, 150⟩, ⟨-100, -150⟩] = 60000 := by
    norm_num [polyArea, signedPolyArea, cyclicPairs, rotLeft1, crossZ,
      List.foldl]
  constructor
  · intro hc
    have hin : ∀ v ∈ ([⟨-100, -150⟩, ⟨100, -150⟩, ⟨100, 150⟩, ⟨-100, 150⟩] :
        List Vec2), signedDistanceToLine v ⟨⟨c, 0⟩, ⟨0, 1⟩⟩ * 1 ≥ -EPS := by
      intro v hv
      simp only [List.mem_cons, List.not_mem_nil, or_false] at hv
      rcases hv with rfl | rfl | rfl | rfl <;>
        (norm_num [signedDistanceToLine, dot2, sub2, perp2, EPS]; linarith)
    have hout : ∀ v ∈ ([⟨-100, -150⟩, ⟨100, -150⟩, ⟨100, 150⟩, ⟨-100, 150⟩] :
        List Vec2), ¬signedDistanceToLine v ⟨⟨c, 0⟩, ⟨0, 1⟩⟩ * (-1) ≥ -EPS := by
      intro v hv
      simp only [List.mem_cons, List.not_mem_nil, or_false] at hv
      rcases hv with rfl | rfl | rfl | rfl <;>
        (norm_num [signedDistanceToLine, dot2, sub2, perp2, EPS]; linarith)
    have hpos : clipPolyHalfPlane
        [⟨-100, -150⟩, ⟨100, -150⟩, ⟨100, 150⟩, ⟨-100, 150⟩]
        ⟨⟨c, 0⟩, ⟨0, 1⟩⟩ 1 =
        [⟨100, -150⟩, ⟨100, 150⟩, ⟨-100, 150⟩, ⟨-100, -150⟩] := by
      unfold clipPolyHalfPlane clipPolyHalfPlaneEps
      rw [if_neg (by norm_num), clipPolyRaw_all_in hin, hcleanup]
    have hneg : clipPolyHalfPlane
        [⟨-100, -150⟩, ⟨100, -150⟩, ⟨100, 150⟩, ⟨-100, 150⟩]
        ⟨⟨c, 0⟩, ⟨0, 1⟩⟩ (-1) = [] := by
      unfold clipPolyHalfPlane clipPolyHalfPlaneEps
      rw [if_neg (by norm_num), clipPolyRaw_all_out hout]
      rfl
    have hfp : foldPieces ⟨⟨c, 0⟩, ⟨0, 1⟩⟩ .Front
        (makePaper 1 1 ⟨"#ffffff", "#f0f0f0", "rgba"⟩ 0 0 200 300).faces 2 =
        ([], [⟨2, [⟨100, -150⟩, ⟨100, 150⟩, ⟨-100, 150⟩, ⟨-100, -150⟩],
          .front, 0, true⟩], 3) := by
      rw [hfaces]
      simp only [foldPieces, hpos, hneg, harea]
      norm_num [polyArea, signedPolyArea, MIN_FACE_AREA, foldPieces]
    have h := (buildFoldAnim_rejects_of_pieces
      (makePaper 1 1 ⟨"#ffffff", "#f0f0f0", "rgba"⟩ 0 0 200 300)
      ⟨⟨c, 0⟩, ⟨0, 1⟩⟩ none 2).2.2
    rw [show ((none : Option FoldSide).getD (determineFoldSide ⟨0, 0⟩ ⟨0, 0⟩)) =
      FoldSide.Front from rfl, hfp] at h
    exact h (by simp) rfl
  · intro hc
    have hout : ∀ v ∈ ([⟨-100, -150⟩, ⟨100, -150⟩, ⟨100, 150⟩, ⟨-100, 150⟩] :
        List Vec2), ¬signedDistanceToLine v ⟨⟨c, 0⟩, ⟨0, 1⟩⟩ * 1 ≥ -EPS := by
      intro v hv
      simp only [List.mem_cons, List.not_mem_nil, or_false] at hv
      rcases hv with rfl | rfl | rfl | rfl <;>
        (norm_num [signedDistanceToLine, dot2, sub2, perp2, EPS]; linarith)
    have hin : ∀ v ∈ ([⟨-100, -150⟩, ⟨100, -150⟩, ⟨100, 150⟩, ⟨-100, 150⟩] :
        List Vec2), signedDistanceToLine v ⟨⟨c, 0⟩, ⟨0, 1⟩⟩ * (-1) ≥ -EPS := by
      intro v hv
      simp only [List.mem_cons, List.not_mem_nil, or_false] at hv
      rcases hv with rfl | rfl | rfl | rfl <;>
        (norm_num [signedDistanceToLine, dot2, sub2, perp2, EPS]; linarith)
    have hpos : clipPolyHalfPlane
        [⟨-100, -150⟩, ⟨100, -150⟩, ⟨100, 150⟩, ⟨-100, 150⟩]
        ⟨⟨c, 0⟩, ⟨0, 1⟩⟩ 1 = [] := by
      unfold clipPolyHalfPlane clipPolyHalfPlaneEps
      rw [if_neg (by norm_num), clipPolyRaw_all_out hout]
      rfl
    have hneg : clipPolyHalfPlane
        [⟨-100, -150⟩, ⟨100, -150⟩, ⟨100, 150⟩, ⟨-100, 150⟩]
        ⟨⟨c, 0⟩, ⟨0, 1⟩⟩ (-1) =
        [⟨100, -150⟩, ⟨100, 150⟩, ⟨-100, 150⟩, ⟨-100, -150⟩] := by
      unfold clipPolyHalfPlane clipPolyHalfPlaneEps
      rw [if_neg (by norm_num), clipPolyRaw_all_in hin, hcleanup]
    have hfp : foldPieces ⟨⟨c, 0⟩, ⟨0, 1⟩⟩ .Front
        (makePaper 1 1 ⟨"#ffffff", "#f0f0f0", "rgba"⟩ 0 0 200 300).faces 2 =
        ([⟨2, [⟨100, -150⟩, ⟨100, 150⟩, ⟨-100, 150⟩, ⟨-100, -150⟩],
          .front, 0, true⟩], [], 3) := by
      rw [hfaces]
      simp only [foldPieces, hpos, hneg, harea]
      norm_num [polyArea, signedPolyArea, MIN_FACE_AREA, foldPieces]
    have h := (buildFoldAnim_rejects_of_pieces
      (makePaper 1 1 ⟨"#ffffff", "#f0f0f0", "rgba"⟩ 0 0 200 300)
      ⟨⟨c, 0⟩, ⟨0, 1⟩⟩ none 2).2.1
    rw [show ((none : Option FoldSide).getD (determineFoldSide ⟨0, 0⟩ ⟨0, 0⟩)) =
      FoldSide.Front from rfl, hfp] at h
    exact h rfl (by simp)

/-- Witness for the amended C3 at hinge positions `x = 5000` and
`x = -5000`. -/
theorem buildFoldAnim_line_outside_sheet_witness :
    (buildFoldAnim (makePaper 1 1 ⟨"#ffffff", "#f0f0f0", "rgba"⟩ 0 0 200 300)
        ⟨⟨5000, 0⟩, ⟨0, 1⟩⟩ none 2).1 = .rejected .emptyStationarySide
  ∧ (buildFoldAnim (makePaper 1 1 ⟨"#ffffff", "#f0f0f0", "rgba"⟩ 0 0 200 300)
        ⟨⟨-5000, 0⟩, ⟨0, 1⟩⟩ none 2).1 = .rejected .emptyMovingSide :=
  ⟨(buildFoldAnim_line_outside_sheet 5000).1 (by norm_num),
   (buildFoldAnim_line_outside_sheet (-5000)).2 (by norm_num)⟩

/-!  Shared lemmas for `commitFlip` with axis-aligned rotation -/

theorem min_mirror (c a b : ℚ) : min (2 * c - a) (2 * c - b) = 2 * c - max a b := by
  rcases le_total a b with h | h
  · rw [max_eq_right h, min_eq_right (by linarith)]
  · rw [max_eq_left h, min_eq_left (by linarith)]

theorem max_mirror (c a b : ℚ) : max (2 * c - a) (2 * c - b) = 2 * c - min a b := by
  rcases le_total a b with h | h
  · rw [min_eq_left h, max_eq_left (by linarith)]
  · rw [min_eq_right h, max_eq_right (by linarith)]

theorem foldl_min_x_mirror (c : ℚ) :
    ∀ (vs : List Vec2) (a : ℚ),
      (vs.map (fun v => Vec2.mk (2 * c - v.x) v.y)).foldl
          (fun m w => min m w.x) (2 * c - a) =
        2 * c - vs.foldl (fun m w => max m w.x) a := by
  intro vs
  induction vs with
  | nil => intro a; rfl
  | cons w t ih =>
    intro a
    rw [List.map_cons, List.foldl_cons, List.foldl_cons]
    show (t.map (fun v => Vec2.mk (2 * c - v.x) v.y)).foldl
        (fun m w => min m w.x) (min (2 * c - a) (2 * c - w.x)) = _
    rw [min_mirror]
    exact ih (max a w.x)

theorem foldl_max_x_mirror (c : ℚ) :
    ∀ (vs : List Vec2) (a : ℚ),
      (vs.map (fun v => Vec2.mk (2 * c - v.x) v.y)).foldl
          (fun m w => max m w.x) (2 * c - a) =
        2 * c - vs.foldl (fun m w => min m w.x) a := by
  intro vs
  induction vs with
  | nil => intro a; rfl
  | cons w t ih =>
    intro a
    rw [List.map_cons, List.foldl_cons, List.foldl_cons]
    show (t.map (fun v => Vec2.mk (2 * c - v.x) v.y)).foldl
        (fun m w => max m w.x) (max (2 * c - a) (2 * c - w.x)) = _
    rw [max_mirror]
    exact ih (min a w.x)

theorem foldl_min_y_mirror (c : ℚ) :
    ∀ (vs : List Vec2) (a : ℚ),
      (vs.map (fun v => Vec2.mk v.x (2 * c - v.y))).foldl
          (fun m w => min m w.y) (2 * c - a) =
        2 * c - vs.foldl (fun m w => max m w.y) a := by
  intro vs
  induction vs with
  | nil => intro a; rfl
  | cons w t ih =>
    intro a
    rw [List.map_cons, List.foldl_cons, List.foldl_cons]
    show (t.map (fun v => Vec2.mk v.x (2 * c - v.y))).foldl
        (fun m w => min m w.y) (min (2 * c - a) (2 * c - w.y)) = _
    rw [min_mirror]
    exact ih (max a w.y)

theorem foldl_max_y_mirror (c : ℚ) :
    ∀ (vs : List Vec2) (a : ℚ),
      (vs.map (fun v => Vec2.mk v.x (2 * c - v.y))).foldl
          (fun m w => max m w.y) (2 * c - a) =
        2 * c - vs.foldl (fun m w => min m w.y) a := by
  intro vs
  induction vs with
  | nil => intro a; rfl
  | cons w t ih =>
    intro a
    rw [List.map_cons, List.foldl_cons, List.foldl_cons]
    show (t.map (fun v => Vec2.mk v.x (2 * c - v.y))).foldl
        (fun m w => max m w.y) (max (2 * c - a) (2 * c - w.y)) = _
    rw [max_mirror]
    exact ih (min a w.y)

theorem flatMap_verts_map (g : Vec2 → Vec2) (ml : ℤ) :
    ∀ faces : List Face,
      ((faces.map (fun f =>
          { f with
              verts := f.verts.map g
              up := toggleSide f.up
              layer := ml - f.layer
              outer := true })).flatMap Face.verts) =
        (faces.flatMap Face.verts).map g := by
  intro faces
  induction faces with
  | nil => rfl
  | cons f t ih =>
    rw [List.map_cons, List.flatMap_cons, List.flatMap_cons, ih, List.map_append]

theorem bboxCenter_x_mirror (faces : List Face) (ml : ℤ) (c : ℚ)
    (hc : c = (bboxCenter faces).x) :
    (bboxCenter (faces.map (fun f =>
        { f with
            verts := f.verts.map (fun v => Vec2.mk (2 * c - v.x) v.y)
            up := toggleSide f.up
            layer := ml - f.layer
            outer := true }))).x = c := by
  have hm := flatMap_verts_map (fun v => Vec2.mk (2 * c - v.x) v.y) ml faces
  rcases hflat : faces.flatMap Face.verts with _ | ⟨v, vs⟩
  · unfold bboxCenter at hc ⊢
    rw [hm, hflat]
    rw [hflat] at hc
    exact hc.symm
  · unfold bboxCenter at hc ⊢
    rw [hm, hflat]
    rw [hflat] at hc
    rw [List.map_cons]
    show ((vs.map (fun v => Vec2.mk (2 * c - v.x) v.y)).foldl
          (fun m w => min m w.x) (2 * c - v.x) +
        (vs.map (fun v => Vec2.mk (2 * c - v.x) v.y)).foldl
          (fun m w => max m w.x) (2 * c - v.x)) / 2 = c
    rw [foldl_min_x_mirror, foldl_max_x_mirror]
    have hc2 : c = (vs.foldl (fun m w => min m w.x) v.x +
        vs.foldl (fun m w => max m w.x) v.x) / 2 := hc
    rw [hc2]
    ring

theorem bboxCenter_y_mirror (faces : List Face) (ml : ℤ) (c : ℚ)
    (hc : c = (bboxCenter faces).y) :
    (bboxCenter (faces.map (fun f =>
        { f with
            verts := f.verts.map (fun v => Vec2.mk v.x (2 * c - v.y))
            up := toggleSide f.up
            layer := ml - f.layer
            outer := true }))).y = c := by
  have hm := flatMap_verts_map (fun v => Vec2.mk v.x (2 * c - v.y)) ml faces
  rcases hflat : faces.flatMap Face.verts with _ | ⟨v, vs⟩
  · unfold bboxCenter at hc ⊢
    rw [hm, hflat]
    rw [hflat] at hc
    exact hc.symm
  · unfold bboxCenter at hc ⊢
    rw [hm, hflat]
    rw [hflat] at hc
    rw [List.map_cons]
    show ((vs.map (fun v => Vec2.mk v.x (2 * c - v.y))).foldl
          (fun m w => min m w.y) (2 * c - v.y) +
        (vs.map (fun v => Vec2.mk v.x (2 * c - v.y))).foldl
          (fun m w => max m w.y) (2 * c - v.y)) / 2 = c
    rw [foldl_min_y_mirror, foldl_max_y_mirror]
    have hc2 : c = (vs.foldl (fun m w => min m w.y) v.y +
        vs.foldl (fun m w => max m w.y) v.y) / 2 := hc
    rw [hc2]
    ring

/-- With an axis-aligned rotation (`sin rot = 0`, `cos rot = ±1`),
`commitFlip` reflects every vertex across the vertical line through the
bounding-box center. -/
theorem commitFlip_x_mirror (paper : Paper) (anim : FlipAnim)
    (hS : paper.rotS = 0) (hC : paper.rotC = 1 ∨ paper.rotC = -1) :
    (commitFlip paper anim).faces = paper.faces.map (fun f =>
      { f with
          verts := f.verts.map (fun v =>
            Vec2.mk (2 * (bboxCenter paper.faces).x - v.x) v.y)
          up := toggleSide f.up
          layer := anim.maxLayer - f.layer
          outer := true }) := by
  show paper.faces.map _ = paper.faces.map _
  refine congrFun (congrArg List.map (funext fun f => ?_)) paper.faces
  rw [Face.mk.injEq]
  refine ⟨rfl, ?_, rfl, rfl, rfl⟩
  refine congrFun (congrArg List.map (funext fun v => ?_)) f.verts
  rw [Vec2.mk.injEq]
  rcases hC with h | h <;> rw [hS, h] <;> constructor <;> ring

/-- With a quarter-turn rotation (`cos rot = 0`, `sin rot = ±1`),
`commitFlip` reflects every vertex across the horizontal line through the
bounding-box center. -/
theorem commitFlip_y_mirror (paper : Paper) (anim : FlipAnim)
    (hC : paper.rotC = 0) (hS : paper.rotS = 1 ∨ paper.rotS = -1) :
    (commitFlip paper anim).faces = paper.faces.map (fun f =>
      { f with
          verts := f.verts.map (fun v =>
            Vec2.mk v.x (2 * (bboxCenter paper.faces).y - v.y))
          up := toggleSide f.up
          layer := anim.maxLayer - f.layer
          outer := true }) := by
  show paper.faces.map _ = paper.faces.map _
  refine congrFun (congrArg List.map (funext fun f => ?_)) paper.faces
  rw [Face.mk.injEq]
  refine ⟨rfl, ?_, rfl, rfl, rfl⟩
  refine congrFun (congrArg List.map (funext fun v => ?_)) f.verts
  rw [Vec2.mk.injEq]
  rcases hS with h | h <;> rw [hC, h] <;> constructor <;> ring

/-!  Claim C5: double flip round trip -/

/-- Counterexample to C5 as stated: for a sheet rotated by the angle with
`cos rot = 3/5`, `sin rot = 4/5`, building and committing a flip twice moves
every vertex by a fixed translation (the bounding-box center of the mirrored
sheet drifts along the slanted axis normal), so the original vertex positions
are not restored even approximately: the vertex at the origin ends up at
`(-252/25, 336/25)`, a squared distance of `282.24` away — far beyond any
floating-point tolerance (the sheet is only 100 wide). -/
theorem commitFlip_double_counterexample :
    let P : Paper :=
      { id := 1
        style := ⟨"#ffffff", "#f0f0f0", "rgba"⟩
        pos := ⟨0, 0⟩
        rotC := 3 / 5
        rotS := 4 / 5
        scale := 1
        faces := [⟨1, [⟨0, 0⟩, ⟨100, 0⟩, ⟨0, 100⟩], .front, 0, true⟩]
        baseW := 100
        baseH := 100
        isDragging := false }
    (doubleFlip P).faces.map Face.verts =
      [[⟨-252 / 25, 336 / 25⟩, ⟨2248 / 25, 336 / 25⟩, ⟨-252 / 25, 2836 / 25⟩]]
  ∧ ((-252 / 25 : ℚ) - 0) ^ 2 + ((336 / 25 : ℚ) - 0) ^ 2 > 100 := by
  intro P
  constructor
  · norm_num [P, doubleFlip, commitFlip, buildFlipAnim, bboxCenter, cloneFace,
      maxLayerOf, toggleSide, List.foldl]
  · norm_num

/-- C5 (amended): for every sheet whose rotation is axis-aligned
(`sin rot = 0` and `cos rot = ±1`, or `cos rot = 0` and `sin rot = ±1` —
in particular the untouched initial sheet), building and committing a flip
twice with no other mutation in between restores every face's vertex
positions exactly and its original `up` value, while every face ends up
`outer = true`; for other rotations the double flip translates the sheet
(see the counterexample), because the bounding-box center is not preserved
by a slanted reflection. -/
theorem commitFlip_double_roundtrip (paper : Paper)
    (h : (paper.rotS = 0 ∧ (paper.rotC = 1 ∨ paper.rotC = -1)) ∨
         (paper.rotC = 0 ∧ (paper.rotS = 1 ∨ paper.rotS = -1))) :
    (doubleFlip paper).faces.map (fun f => (f.verts, f.up)) =
      paper.faces.map (fun f => (f.verts, f.up))
  ∧ ∀ f ∈ (doubleFlip paper).faces, f.outer = true := by
  constructor
  · rcases h with ⟨hS, hC⟩ | ⟨hC, hS⟩
    · have h1 : (commitFlip paper (buildFlipAnim paper)).faces =
          paper.faces.map (fun f =>
            { f with
                verts := f.verts.map (fun v =>
                  Vec2.mk (2 * (bboxCenter paper.faces).x - v.x) v.y)
                up := toggleSide f.up
                layer := (buildFlipAnim paper).maxLayer - f.layer
                outer := true }) :=
        commitFlip_x_mirror paper (buildFlipAnim paper) hS hC
      have h2 : (commitFlip (commitFlip paper (buildFlipAnim paper))
          (buildFlipAnim (commitFlip paper (buildFlipAnim paper)))).faces =
          (commitFlip paper (buildFlipAnim paper)).faces.map (fun f =>
            { f with
                verts := f.verts.map (fun v =>
                  Vec2.mk (2 * (bboxCenter
                    (commitFlip paper (buildFlipAnim paper)).faces).x - v.x) v.y)
                up := toggleSide f.up
                layer := (buildFlipAnim (commitFlip paper
                  (buildFlipAnim paper))).maxLayer - f.layer
                outer := true }) :=
        commitFlip_x_mirror (commitFlip paper (buildFlipAnim paper))
          (buildFlipAnim (commitFlip paper (buildFlipAnim paper))) hS hC
      have hbb : (bboxCenter (commitFlip paper (buildFlipAnim paper)).faces).x =
          (bboxCenter paper.faces).x := by
        rw [h1]
        exact bboxCenter_x_mirror paper.faces (buildFlipAnim paper).maxLayer _ rfl
      rw [hbb] at h2
      show (commitFlip (commitFlip paper (buildFlipAnim paper))
          (buildFlipAnim (commitFlip paper (buildFlipAnim paper)))).faces.map _ = _
      rw [h2, h1, List.map_map, List.map_map]
      refine congrFun (congrArg List.map (funext fun f => ?_)) paper.faces
      show ((f.verts.map (fun v =>
          Vec2.mk (2 * (bboxCenter paper.faces).x - v.x) v.y)).map (fun v =>
          Vec2.mk (2 * (bboxCenter paper.faces).x - v.x) v.y),
        toggleSide (toggleSide f.up)) = (f.verts, f.up)
      rw [Prod.mk.injEq]
      constructor
      · rw [List.map_map]
        have : ((fun v => Vec2.mk (2 * (bboxCenter paper.faces).x - v.x) v.y) ∘
            (fun v => Vec2.mk (2 * (bboxCenter paper.faces).x - v.x) v.y)) =
            id := by
          funext v
          show Vec2.mk (2 * (bboxCenter paper.faces).x -
            (2 * (bboxCenter paper.faces).x - v.x)) v.y = v
          rw [show 2 * (bboxCenter paper.faces).x -
            (2 * (bboxCenter paper.faces).x - v.x) = v.x by ring]
        rw [this, List.map_id]
      · cases f.up <;> rfl
    · have h1 : (commitFlip paper (buildFlipAnim paper)).faces =
          paper.faces.map (fun f =>
            { f with
                verts := f.verts.map (fun v =>
                  Vec2.mk v.x (2 * (bboxCenter paper.faces).y - v.y))
                up := toggleSide f.up
                layer := (buildFlipAnim paper).maxLayer - f.layer
                outer := true }) :=
        commitFlip_y_mirror paper (buildFlipAnim paper) hC hS
      have h2 : (commitFlip (commitFlip paper (buildFlipAnim paper))
          (buildFlipAnim (commitFlip paper (buildFlipAnim paper)))).faces =
          (commitFlip paper (buildFlipAnim paper)).faces.map (fun f =>
            { f with
                verts := f.verts.map (fun v =>
                  Vec2.mk v.x (2 * (bboxCenter
                    (commitFlip paper (buildFlipAnim paper)).faces).y - v.y))
                up := toggleSide f.up
                layer := (buildFlipAnim (commitFlip paper
                  (buildFlipAnim paper))).maxLayer - f.layer
                outer := true }) :=
        commitFlip_y_mirror (commitFlip paper (buildFlipAnim paper))
          (buildFlipAnim (commitFlip paper (buildFlipAnim paper))) hC hS
      have hbb : (bboxCenter (commitFlip paper (buildFlipAnim paper)).faces).y =
          (bboxCenter paper.faces).y := by
        rw [h1]
        exact bboxCenter_y_mirror paper.faces (buildFlipAnim paper).maxLayer _ rfl
      rw [hbb] at h2
      show (commitFlip (commitFlip paper (buildFlipAnim paper))
          (buildFlipAnim (commitFlip paper (buildFlipAnim paper)))).faces.map _ = _
      rw [h2, h1, List.map_map, List.map_map]
      refine congrFun (congrArg List.map (funext fun f => ?_)) paper.faces
      show ((f.verts.map (fun v =>
          Vec2.mk v.x (2 * (bboxCenter paper.faces).y - v.y))).map (fun v =>
          Vec2.mk v.x (2 * (bboxCenter paper.faces).y - v.y)),
        toggleSide (toggleSide f.up)) = (f.verts, f.up)
      rw [Prod.mk.injEq]
      constructor
      · rw [List.map_map]
        have : ((fun v => Vec2.mk v.x (2 * (bboxCenter paper.faces).y - v.y)) ∘
            (fun v => Vec2.mk v.x (2 * (bboxCenter paper.faces).y - v.y))) =
            id := by
          funext v
          show Vec2.mk v.x (2 * (bboxCenter paper.faces).y -
            (2 * (bboxCenter paper.faces).y - v.y)) = v
          rw [show 2 * (bboxCenter paper.faces).y -
            (2 * (bboxCenter paper.faces).y - v.y) = v.y by ring]
        rw [this, List.map_id]
      · cases f.up <;> rfl
  · intro f hf
    obtain ⟨g, _, rfl⟩ := List.mem_map.mp hf
    rfl

/-- Witness for the amended C5: the unrotated initial square sheet flips back
to its original vertices and side. -/
theorem commitFlip_double_roundtrip_witness :
    let P := makePaper 1 1 ⟨"#ffffff", "#f0f0f0", "rgba"⟩ 0 0 20 20
    (doubleFlip P).faces.map (fun f => (f.verts, f.up)) =
      P.faces.map (fun f => (f.verts, f.up)) := by
  intro P
  exact (commitFlip_double_roundtrip P (Or.inl ⟨rfl, Or.inl rfl⟩)).1

/-! ### C9: winding invariance of `polyArea` and `pointInPoly` -/

theorem rotRight1_concat {α : Type} (w : List α) (z : α) :
    rotRight1 (w ++ [z]) = z :: w := by
  unfold rotRight1
  rw [List.reverse_append]
  simp

theorem zip_cons_concat {α : Type} (t : List α) (x z : α) :
    (x :: t).zip (t ++ [z]) = pathPairs x t z := by
  induction t generalizing x with
  | nil => rfl
  | cons y s ih => simp [pathPairs, List.cons_append, List.zip_cons_cons, ih]

theorem pathPairs_concat {α : Type} (t : List α) (x y z : α) :
    pathPairs x (t ++ [y]) z = pathPairs x t y ++ [(y, z)] := by
  induction t generalizing x with
  | nil => rfl
  | cons w s ih => simp [pathPairs, ih]

theorem pathPairs_reverse {α : Type} (t : List α) (x z : α) :
    ((pathPairs x t z).reverse).map Prod.swap = pathPairs z t.reverse x := by
  induction t generalizing x with
  | nil => rfl
  | cons y s ih =>
    simp [pathPairs, pathPairs_concat, ← ih]

theorem cyclicPairs_cons_pathPairs {α : Type} (a : α) (t : List α) :
    cyclicPairs (a :: t) = pathPairs a t a := by
  have h : rotLeft1 (a :: t) = t ++ [a] := rfl
  rw [cyclicPairs, h, zip_cons_concat]

theorem prevPairs_cons_concat {α : Type} (a v : α) (u : List α) :
    prevPairs (a :: (u ++ [v])) = (a, v) :: (pathPairs a u v).map Prod.swap := by
  rw [prevPairs]
  have h1 : rotRight1 (a :: (u ++ [v])) = v :: a :: u := by
    have h2 : a :: (u ++ [v]) = (a :: u) ++ [v] := by simp
    rw [h2, rotRight1_concat]
  rw [h1, List.zip_cons_cons]
  rw [← zip_cons_concat u a v, List.zip_swap]

theorem foldl_toggle_parity {α : Type} (p : α → Bool) (l : List α) (b : Bool) :
    l.foldl (fun ins ab => if p ab then !ins else ins) b =
      (if l.countP p % 2 = 1 then !b else b) := by
  induction l generalizing b with
  | nil => simp
  | cons a t ih =>
    simp only [List.foldl_cons, ih, List.countP_cons]
    by_cases hp : p a
    · simp only [if_pos hp]
      by_cases hn : t.countP p % 2 = 1
      · rw [if_pos hn, if_neg (by omega), Bool.not_not]
      · rw [if_neg hn, if_pos (by omega)]
    · simp only [if_neg hp]
      simp

theorem foldl_add_crossZ (l : List (Vec2 × Vec2)) (init : ℚ) :
    l.foldl (fun sum pq => sum + crossZ pq.1 pq.2) init =
      init + (l.map fun pq => crossZ pq.1 pq.2).sum := by
  induction l generalizing init with
  | nil => simp
  | cons a t ih =>
    simp only [List.foldl_cons, ih, List.map_cons, List.sum_cons]
    ring

theorem sum_map_crossZ_swap (l : List (Vec2 × Vec2)) :
    ((l.map Prod.swap).map fun pq => crossZ pq.1 pq.2).sum =
      -((l.map fun pq => crossZ pq.1 pq.2).sum) := by
  induction l with
  | nil => simp
  | cons a t ih =>
    simp only [List.map_cons, List.sum_cons, ih, Prod.fst_swap, Prod.snd_swap]
    simp only [crossZ]
    ring

theorem signedPolyArea_reverse (poly : List Vec2) :
    signedPolyArea poly.reverse = -signedPolyArea poly := by
  by_cases hlen : poly.length < 3
  · rw [signedPolyArea, signedPolyArea, if_pos hlen, if_pos (by simpa using hlen)]
    norm_num
  · obtain ⟨a, t, rfl⟩ : ∃ a t, poly = a :: t := by
      cases poly with
      | nil => simp at hlen
      | cons a t => exact ⟨a, t, rfl⟩
    obtain ⟨u, v, rfl⟩ : ∃ u v, t = u ++ [v] := by
      rcases List.eq_nil_or_concat t with h | ⟨u, v, h⟩
      · subst h; simp at hlen
      · exact ⟨u, v, by simpa [List.concat_eq_append] using h⟩
    have hlen2 : ¬ ((a :: (u ++ [v])).reverse.length < 3) := by
      simpa using hlen
    rw [signedPolyArea, signedPolyArea, if_neg hlen2, if_neg hlen]
    have hrev : (a :: (u ++ [v])).reverse = v :: (u.reverse ++ [a]) := by simp
    rw [hrev, cyclicPairs_cons_pathPairs, cyclicPairs_cons_pathPairs,
      pathPairs_concat, pathPairs_concat, ← pathPairs_reverse,
      foldl_add_crossZ, foldl_add_crossZ, List.map_append, List.map_append,
      List.sum_append, List.sum_append, sum_map_crossZ_swap,
      List.map_reverse, List.sum_reverse]
    simp [crossZ]
    ring

theorem pointInPolyEps_foldl (eps : ℚ) (pt : Vec2) (poly : List Vec2) :
    pointInPolyEps eps pt poly =
      if poly.length < 3 then false else
        (prevPairs poly).foldl
          (fun inside ab => if inPred eps pt ab then !inside else inside)
          false := rfl

theorem inPred_zero_swap (pt : Vec2) (ab : Vec2 × Vec2) :
    inPred 0 pt (Prod.swap ab) = inPred 0 pt ab := by
  rcases ab with ⟨a, b⟩
  simp only [inPred, Prod.swap]
  by_cases ha : a.y > pt.y <;> by_cases hb : b.y > pt.y
  · simp [ha, hb]
  · have hd1 : b.y - a.y ≠ 0 := by intro h; apply hb; linarith [ha]
    have hd2 : a.y - b.y ≠ 0 := by intro h; apply hb; linarith [ha]
    have ht : (a.x - b.x) * (pt.y - b.y) / (a.y - b.y) + b.x
        = (b.x - a.x) * (pt.y - a.y) / (b.y - a.y) + a.x := by
      field_simp
      ring
    simp [ha, hb, ht]
  · have hd1 : b.y - a.y ≠ 0 := by intro h; apply ha; linarith [hb]
    have hd2 : a.y - b.y ≠ 0 := by intro h; apply ha; linarith [hb]
    have ht : (a.x - b.x) * (pt.y - b.y) / (a.y - b.y) + b.x
        = (b.x - a.x) * (pt.y - a.y) / (b.y - a.y) + a.x := by
      field_simp
      ring
    simp [ha, hb, ht]
  · simp [ha, hb]

theorem pointInPolyEps_zero_reverse (pt : Vec2) (poly : List Vec2) :
    pointInPolyEps 0 pt poly.reverse = pointInPolyEps 0 pt poly := by
  rw [pointInPolyEps_foldl, pointInPolyEps_foldl]
  by_cases hlen : poly.length < 3
  · rw [if_pos (by simpa using hlen), if_pos hlen]
  · rw [if_neg (by simpa using hlen), if_neg hlen]
    obtain ⟨a, t, rfl⟩ : ∃ a t, poly = a :: t := by
      cases poly with
      | nil => simp at hlen
      | cons a t => exact ⟨a, t, rfl⟩
    obtain ⟨u, v, rfl⟩ : ∃ u v, t = u ++ [v] := by
      rcases List.eq_nil_or_concat t with h | ⟨u, v, h⟩
      · subst h; simp at hlen
      · exact ⟨u, v, by simpa [List.concat_eq_append] using h⟩
    rw [foldl_toggle_parity, foldl_toggle_parity]
    have hcount : (prevPairs (a :: (u ++ [v])).reverse).countP (inPred 0 pt) =
        (prevPairs (a :: (u ++ [v]))).countP (inPred 0 pt) := by
      have hrev : (a :: (u ++ [v])).reverse = v :: (u.reverse ++ [a]) := by simp
      rw [hrev, prevPairs_cons_concat, prevPairs_cons_concat,
        ← pathPairs_reverse]
      rw [List.countP_cons, List.countP_cons]
      have hmapmap : (((pathPairs a u v).reverse.map Prod.swap).map Prod.swap)
          = (pathPairs a u v).reverse := by
        simp [List.map_map]
      rw [hmapmap, List.countP_reverse, List.countP_map]
      have hcomp : (inPred 0 pt ∘ Prod.swap) = inPred 0 pt := by
        funext ab
        exact inPred_zero_swap pt ab
      rw [hcomp]
      have hhead : inPred 0 pt (v, a) = inPred 0 pt (a, v) := by
        have h := inPred_zero_swap pt (a, v)
        simpa [Prod.swap] using h
      rw [hhead]
    rw [hcount]

/-- C9 (amended): reversing a polygon's vertex order negates `signedPolyArea`
exactly (so `polyArea` is winding-invariant), and the even-odd test is
winding-invariant for the epsilon-free edge-intersection abscissa
(`pointInPolyEps 0`).  The code's `pointInPoly` adds `EPS` to the
denominator `b.y - a.y`, which is antisymmetric in the edge's endpoints, so
reversal shifts each crossing abscissa by an `EPS`-order amount and the claim
fails for the code as written in a narrow band near polygon edges (see
`pointInPoly_reverse_counterexample`). -/
theorem winding_invariance (poly : List Vec2) (pt : Vec2) :
    signedPolyArea poly.reverse = -signedPolyArea poly ∧
    polyArea poly.reverse = polyArea poly ∧
    pointInPolyEps 0 pt poly.reverse = pointInPolyEps 0 pt poly := by
  refine ⟨signedPolyArea_reverse poly, ?_, pointInPolyEps_zero_reverse pt poly⟩
  rw [polyArea, polyArea, signedPolyArea_reverse, abs_neg]

/-- Counterexample for C9 as stated: on the triangle `(0,0), (1,1), (0,2)`
the test point whose abscissa equals the forward-orientation crossing
threshold is classified outside for the original vertex order and inside for
the reversed order, both at the modelled `EPS` and at a coarser positive
epsilon `1/100` (the failure band exists for every positive epsilon; only its
location depends on the value). -/
theorem pointInPoly_reverse_counterexample :
    pointInPoly ⟨499999999/999999999, 1/2⟩
      [⟨0, 0⟩, ⟨1, 1⟩, ⟨0, 2⟩] = false ∧
    pointInPoly ⟨499999999/999999999, 1/2⟩
      (List.reverse [⟨0, 0⟩, ⟨1, 1⟩, ⟨0, 2⟩]) = true ∧
    pointInPolyEps (1/100) ⟨49/99, 1/2⟩
      [⟨0, 0⟩, ⟨1, 1⟩, ⟨0, 2⟩] = false ∧
    pointInPolyEps (1/100) ⟨49/99, 1/2⟩
      (List.reverse [⟨0, 0⟩, ⟨1, 1⟩, ⟨0, 2⟩]) = true := by
  norm_num [pointInPoly, pointInPolyEps, prevPairs, rotRight1, EPS, List.foldl]

/-! ### C6: area additivity of half-plane clipping -/

theorem clipPolyRaw_five (eps ks : ℚ) (line : Line2) (p1 p2 p3 p4 p5 : Vec2) :
    clipPolyRaw eps [p1, p2, p3, p4, p5] line ks =
      clipEdgeEmit eps line ks p1 p2 ++ clipEdgeEmit eps line ks p2 p3 ++
      clipEdgeEmit eps line ks p3 p4 ++ clipEdgeEmit eps line ks p4 p5 ++
      clipEdgeEmit eps line ks p5 p1 := by
  simp [clipPolyRaw, cyclicPairs, rotLeft1, List.foldl, List.append_assoc]

theorem collapse4_keep (p1 p2 p3 p4 : Vec2)
    (h12 : (p2.x - p1.x) ^ 2 + (p2.y - p1.y) ^ 2 > VERTEX_COLLAPSE_THRESHOLD ^ 2)
    (h23 : (p3.x - p2.x) ^ 2 + (p3.y - p2.y) ^ 2 > VERTEX_COLLAPSE_THRESHOLD ^ 2)
    (h34 : (p4.x - p3.x) ^ 2 + (p4.y - p3.y) ^ 2 > VERTEX_COLLAPSE_THRESHOLD ^ 2)
    (h14 : ¬ ((p1.x - p4.x) ^ 2 + (p1.y - p4.y) ^ 2 < VERTEX_COLLAPSE_THRESHOLD ^ 2)) :
    collapseNearbyVertices [p1, p2, p3, p4] = [p1, p2, p3, p4] := by
  simp [collapseNearbyVertices, List.foldl, h12, h23, h34, h14]

theorem collapse5_drop3 (p1 p2 p3 p4 p5 : Vec2)
    (h12 : (p2.x - p1.x) ^ 2 + (p2.y - p1.y) ^ 2 > VERTEX_COLLAPSE_THRESHOLD ^ 2)
    (h23 : ¬ ((p3.x - p2.x) ^ 2 + (p3.y - p2.y) ^ 2 > VERTEX_COLLAPSE_THRESHOLD ^ 2))
    (h24 : (p4.x - p2.x) ^ 2 + (p4.y - p2.y) ^ 2 > VERTEX_COLLAPSE_THRESHOLD ^ 2)
    (h45 : (p5.x - p4.x) ^ 2 + (p5.y - p4.y) ^ 2 > VERTEX_COLLAPSE_THRESHOLD ^ 2)
    (h15 : ¬ ((p1.x - p5.x) ^ 2 + (p1.y - p5.y) ^ 2 < VERTEX_COLLAPSE_THRESHOLD ^ 2)) :
    collapseNearbyVertices [p1, p2, p3, p4, p5] = [p1, p2, p4, p5] := by
  simp [collapseNearbyVertices, List.foldl, h12, h23, h24, h45, h15]

theorem removeCollinear4_keep (p1 p2 p3 p4 : Vec2)
    (h1 : |crossZ (sub2 p1 p4) (sub2 p2 p1)| > COLLINEARITY_THRESHOLD)
    (h2 : |crossZ (sub2 p2 p1) (sub2 p3 p2)| > COLLINEARITY_THRESHOLD)
    (h3 : |crossZ (sub2 p3 p2) (sub2 p4 p3)| > COLLINEARITY_THRESHOLD)
    (h4 : |crossZ (sub2 p4 p3) (sub2 p1 p4)| > COLLINEARITY_THRESHOLD) :
    removeCollinearVertices [p1, p2, p3, p4] = [p1, p2, p3, p4] := by
  simp [removeCollinearVertices, rotRight1, rotLeft1, List.filterMap_cons,
    h1, h2, h3, h4]

/-- C6 (amended): additivity of polygon area under half-plane clipping holds
only up to the loss introduced by `cleanupPoly`, and that loss admits no
fixed tolerance: `collapseNearbyVertices` may drop a vertex whose incident
edges are long, removing a sliver of area proportional to the polygon's size.
For the `pentPoly h` family split by the line `x = -50`, both clipped pieces
stay strictly above the `MIN_FACE_AREA` sliver threshold while the area
defect is exactly `h / 10`, which exceeds any prescribed tolerance `T` once
`10 * T < h`. -/
theorem clip_area_additivity_fails (h T : ℚ) (hh : 1000 ≤ h) (hT : 10 * T < h) :
    polyArea (pentPoly h) = 501 * h / 5 ∧
    polyArea (clipPolyHalfPlane (pentPoly h) pentLine 1) = 50 * h ∧
    polyArea (clipPolyHalfPlane (pentPoly h) pentLine (-1)) = 501 * h / 10 ∧
    MIN_FACE_AREA < polyArea (clipPolyHalfPlane (pentPoly h) pentLine 1) ∧
    MIN_FACE_AREA < polyArea (clipPolyHalfPlane (pentPoly h) pentLine (-1)) ∧
    T < |polyArea (pentPoly h) -
      (polyArea (clipPolyHalfPlane (pentPoly h) pentLine 1) +
       polyArea (clipPolyHalfPlane (pentPoly h) pentLine (-1)))| := by
  have hE1 : clipEdgeEmit EPS pentLine 1 ⟨-100, 0⟩ ⟨0, 0⟩ = [⟨-50, 0⟩] := by
    norm_num [clipEdgeEmit, signedDistanceToLine, dot2, sub2, perp2, lerp, EPS,
      pentLine]
  have hE2 : clipEdgeEmit EPS pentLine 1 ⟨0, 0⟩ ⟨1/5, 0⟩ = [] := by
    norm_num [clipEdgeEmit, signedDistanceToLine, dot2, sub2, perp2, lerp, EPS,
      pentLine]
  have hE3 : clipEdgeEmit EPS pentLine 1 ⟨1/5, 0⟩ ⟨1/5, h⟩ = [] := by
    norm_num [clipEdgeEmit, signedDistanceToLine, dot2, sub2, perp2, lerp, EPS,
      pentLine]
  have hE4 : clipEdgeEmit EPS pentLine 1 ⟨1/5, h⟩ ⟨-100, h⟩ =
      [⟨-50, h⟩, ⟨-100, h⟩] := by
    norm_num [clipEdgeEmit, signedDistanceToLine, dot2, sub2, perp2, lerp, EPS,
      pentLine]
  have hE5 : clipEdgeEmit EPS pentLine 1 ⟨-100, h⟩ ⟨-100, 0⟩ = [⟨-100, 0⟩] := by
    norm_num [clipEdgeEmit, signedDistanceToLine, dot2, sub2, perp2, lerp, EPS,
      pentLine]
  have hF1 : clipEdgeEmit EPS pentLine (-1) ⟨-100, 0⟩ ⟨0, 0⟩ =
      [⟨-50, 0⟩, ⟨0, 0⟩] := by
    norm_num [clipEdgeEmit, signedDistanceToLine, dot2, sub2, perp2, lerp, EPS,
      pentLine]
  have hF2 : clipEdgeEmit EPS pentLine (-1) ⟨0, 0⟩ ⟨1/5, 0⟩ = [⟨1/5, 0⟩] := by
    norm_num [clipEdgeEmit, signedDistanceToLine, dot2, sub2, perp2, lerp, EPS,
      pentLine]
  have hF3 : clipEdgeEmit EPS pentLine (-1) ⟨1/5, 0⟩ ⟨1/5, h⟩ = [⟨1/5, h⟩] := by
    norm_num [clipEdgeEmit, signedDistanceToLine, dot2, sub2, perp2, lerp, EPS,
      pentLine]
  have hF4 : clipEdgeEmit EPS pentLine (-1) ⟨1/5, h⟩ ⟨-100, h⟩ = [⟨-50, h⟩] := by
    norm_num [clipEdgeEmit, signedDistanceToLine, dot2, sub2, perp2, lerp, EPS,
      pentLine]
  have hF5 : clipEdgeEmit EPS pentLine (-1) ⟨-100, h⟩ ⟨-100, 0⟩ = [] := by
    norm_num [clipEdgeEmit, signedDistanceToLine, dot2, sub2, perp2, lerp, EPS,
      pentLine]
  have hraw1 : clipPolyRaw EPS (pentPoly h) pentLine 1 =
      [⟨-50, 0⟩, ⟨-50, h⟩, ⟨-100, h⟩, ⟨-100, 0⟩] := by
    rw [pentPoly, clipPolyRaw_five, hE1, hE2, hE3, hE4, hE5]
    rfl
  have hraw2 : clipPolyRaw EPS (pentPoly h) pentLine (-1) =
      [⟨-50, 0⟩, ⟨0, 0⟩, ⟨1/5, 0⟩, ⟨1/5, h⟩, ⟨-50, h⟩] := by
    rw [pentPoly, clipPolyRaw_five, hF1, hF2, hF3, hF4, hF5]
    rfl
  have hcol1 : collapseNearbyVertices
      [⟨-50, 0⟩, ⟨-50, h⟩, ⟨-100, h⟩, ⟨-100, 0⟩] =
      [⟨-50, 0⟩, ⟨-50, h⟩, ⟨-100, h⟩, ⟨-100, 0⟩] := by
    apply collapse4_keep
    · show ((-50:ℚ) - -50) ^ 2 + (h - 0) ^ 2 > VERTEX_COLLAPSE_THRESHOLD ^ 2
      rw [VERTEX_COLLAPSE_THRESHOLD]
      nlinarith [sq_nonneg (h - 1000)]
    · show ((-100:ℚ) - -50) ^ 2 + (h - h) ^ 2 > VERTEX_COLLAPSE_THRESHOLD ^ 2
      rw [VERTEX_COLLAPSE_THRESHOLD]
      nlinarith
    · show ((-100:ℚ) - -100) ^ 2 + ((0:ℚ) - h) ^ 2 > VERTEX_COLLAPSE_THRESHOLD ^ 2
      rw [VERTEX_COLLAPSE_THRESHOLD]
      nlinarith [sq_nonneg (h - 1000)]
    · show ¬ (((-50:ℚ) - -100) ^ 2 + ((0:ℚ) - 0) ^ 2 < VERTEX_COLLAPSE_THRESHOLD ^ 2)
      rw [VERTEX_COLLAPSE_THRESHOLD]
      norm_num
  have hcol2 : collapseNearbyVertices
      [⟨-50, 0⟩, ⟨0, 0⟩, ⟨1/5, 0⟩, ⟨1/5, h⟩, ⟨-50, h⟩] =
      [⟨-50, 0⟩, ⟨0, 0⟩, ⟨1/5, h⟩, ⟨-50, h⟩] := by
    apply collapse5_drop3
    · show ((0:ℚ) - -50) ^ 2 + ((0:ℚ) - 0) ^ 2 > VERTEX_COLLAPSE_THRESHOLD ^ 2
      rw [VERTEX_COLLAPSE_THRESHOLD]
      norm_num
    · show ¬ (((1:ℚ)/5 - 0) ^ 2 + ((0:ℚ) - 0) ^ 2 > VERTEX_COLLAPSE_THRESHOLD ^ 2)
      rw [VERTEX_COLLAPSE_THRESHOLD]
      norm_num
    · show ((1:ℚ)/5 - 0) ^ 2 + (h - 0) ^ 2 > VERTEX_COLLAPSE_THRESHOLD ^ 2
      rw [VERTEX_COLLAPSE_THRESHOLD]
      nlinarith [sq_nonneg (h - 1000)]
    · show ((-50:ℚ) - 1/5) ^ 2 + (h - h) ^ 2 > VERTEX_COLLAPSE_THRESHOLD ^ 2
      rw [VERTEX_COLLAPSE_THRESHOLD]
      nlinarith
    · show ¬ (((-50:ℚ) - -50) ^ 2 + ((0:ℚ) - h) ^ 2 < VERTEX_COLLAPSE_THRESHOLD ^ 2)
      rw [VERTEX_COLLAPSE_THRESHOLD]
      intro hc
      nlinarith [sq_nonneg (h - 1000)]
  have habs1 : |(50:ℚ) * h| = 50 * h := abs_of_nonneg (by nlinarith)
  have hrem1 : removeCollinearVertices
      [⟨-50, 0⟩, ⟨-50, h⟩, ⟨-100, h⟩, ⟨-100, 0⟩] =
      [⟨-50, 0⟩, ⟨-50, h⟩, ⟨-100, h⟩, ⟨-100, 0⟩] := by
    apply removeCollinear4_keep <;>
      · rw [COLLINEARITY_THRESHOLD]
        norm_num [crossZ, sub2]
        rw [show |(50:ℚ) * h| = 50 * h from habs1]
        nlinarith
  have habs2 : |(251:ℚ)/5 * h| = 251/5 * h := abs_of_nonneg (by nlinarith)
  have hrem2 : removeCollinearVertices
      [⟨-50, 0⟩, ⟨0, 0⟩, ⟨1/5, h⟩, ⟨-50, h⟩] =
      [⟨-50, 0⟩, ⟨0, 0⟩, ⟨1/5, h⟩, ⟨-50, h⟩] := by
    apply removeCollinear4_keep
    · rw [COLLINEARITY_THRESHOLD]
      norm_num [crossZ, sub2]
      nlinarith [abs_of_nonneg (show (0:ℚ) ≤ 50 * h by nlinarith)]
    · rw [COLLINEARITY_THRESHOLD]
      norm_num [crossZ, sub2]
      nlinarith [abs_of_nonneg (show (0:ℚ) ≤ 50 * h by nlinarith)]
    · rw [COLLINEARITY_THRESHOLD]
      norm_num [crossZ, sub2]
      nlinarith [abs_of_nonneg (show (0:ℚ) ≤ 251/5 * h by nlinarith)]
    · rw [COLLINEARITY_THRESHOLD]
      norm_num [crossZ, sub2]
      nlinarith [abs_of_nonneg (show (0:ℚ) ≤ 251/5 * h by nlinarith)]
  have hclean1 : cleanupPoly [⟨-50, 0⟩, ⟨-50, h⟩, ⟨-100, h⟩, ⟨-100, 0⟩] =
      [⟨-50, 0⟩, ⟨-50, h⟩, ⟨-100, h⟩, ⟨-100, 0⟩] := by
    simp [cleanupPoly, hcol1, hrem1]
  have hclean2 : cleanupPoly [⟨-50, 0⟩, ⟨0, 0⟩, ⟨1/5, 0⟩, ⟨1/5, h⟩, ⟨-50, h⟩] =
      [⟨-50, 0⟩, ⟨0, 0⟩, ⟨1/5, h⟩, ⟨-50, h⟩] := by
    unfold cleanupPoly
    rw [hcol2]
    dsimp only
    rw [hrem2]
    norm_num
  have hclip1 : clipPolyHalfPlane (pentPoly h) pentLine 1 =
      [⟨-50, 0⟩, ⟨-50, h⟩, ⟨-100, h⟩, ⟨-100, 0⟩] := by
    rw [clipPolyHalfPlane, clipPolyHalfPlaneEps, hraw1,
      if_neg (by norm_num [pentPoly]), hclean1]
  have hclip2 : clipPolyHalfPlane (pentPoly h) pentLine (-1) =
      [⟨-50, 0⟩, ⟨0, 0⟩, ⟨1/5, h⟩, ⟨-50, h⟩] := by
    rw [clipPolyHalfPlane, clipPolyHalfPlaneEps, hraw2,
      if_neg (by norm_num [pentPoly]), hclean2]
  have hA0 : polyArea (pentPoly h) = 501 * h / 5 := by
    rw [polyArea]
    have hs : signedPolyArea (pentPoly h) = 501 * h / 5 := by
      rw [pentPoly, signedPolyArea]
      rw [if_neg (by norm_num)]
      simp [cyclicPairs, rotLeft1, List.foldl, crossZ]
      ring
    rw [hs]
    exact abs_of_nonneg (by nlinarith)
  have hA1 : polyArea [(⟨-50, 0⟩ : Vec2), ⟨-50, h⟩, ⟨-100, h⟩, ⟨-100, 0⟩] =
      50 * h := by
    rw [polyArea]
    have hs : signedPolyArea [(⟨-50, 0⟩ : Vec2), ⟨-50, h⟩, ⟨-100, h⟩, ⟨-100, 0⟩]
        = 50 * h := by
      rw [signedPolyArea]
      rw [if_neg (by norm_num)]
      simp [cyclicPairs, rotLeft1, List.foldl, crossZ]
      ring
    rw [hs]
    exact abs_of_nonneg (by nlinarith)
  have hA2 : polyArea [(⟨-50, 0⟩ : Vec2), ⟨0, 0⟩, ⟨1/5, h⟩, ⟨-50, h⟩] =
      501 * h / 10 := by
    rw [polyArea]
    have hs : signedPolyArea [(⟨-50, 0⟩ : Vec2), ⟨0, 0⟩, ⟨1/5, h⟩, ⟨-50, h⟩]
        = 501 * h / 10 := by
      rw [signedPolyArea]
      rw [if_neg (by norm_num)]
      simp [cyclicPairs, rotLeft1, List.foldl, crossZ]
      ring
    rw [hs]
    exact abs_of_nonneg (by nlinarith)
  rw [hclip1, hclip2, hA0, hA1, hA2, MIN_FACE_AREA]
  refine ⟨rfl, rfl, rfl, by nlinarith, by nlinarith, ?_⟩
  have hd : 501 * h / 5 - (50 * h + 501 * h / 10) = h / 10 := by ring
  rw [hd, abs_of_nonneg (by nlinarith : (0:ℚ) ≤ h / 10)]
  nlinarith

/-- Counterexample for C6 as stated: at `h = 1000` the two clipped pieces
have areas `50000` and `50100`, both far above the sliver threshold, yet
their sum misses the original area `100200` by `100`: `cleanupPoly` collapsed
the redundant bottom-edge vertex `(1/5, 0)` into `(0, 0)`, chopping a
`1/5 x 1000` triangle sliver off the negative-side piece. -/
theorem clip_area_additivity_counterexample :
    polyArea (pentPoly 1000) = 100200 ∧
    polyArea (clipPolyHalfPlane (pentPoly 1000) pentLine 1) = 50000 ∧
    polyArea (clipPolyHalfPlane (pentPoly 1000) pentLine (-1)) = 50100 ∧
    MIN_FACE_AREA < polyArea (clipPolyHalfPlane (pentPoly 1000) pentLine 1) ∧
    MIN_FACE_AREA < polyArea (clipPolyHalfPlane (pentPoly 1000) pentLine (-1)) ∧
    |polyArea (pentPoly 1000) -
      (polyArea (clipPolyHalfPlane (pentPoly 1000) pentLine 1) +
       polyArea (clipPolyHalfPlane (pentPoly 1000) pentLine (-1)))| = 100 := by
  have hc1 : clipPolyHalfPlane (pentPoly 1000) pentLine 1 =
      [⟨-50, 0⟩, ⟨-50, 1000⟩, ⟨-100, 1000⟩, ⟨-100, 0⟩] := by
    norm_num [clipPolyHalfPlane, clipPolyHalfPlaneEps, clipPolyRaw, cyclicPairs,
      rotLeft1, rotRight1, clipEdgeEmit, signedDistanceToLine, dot2, sub2,
      perp2, lerp, EPS, pentPoly, pentLine, List.foldl, cleanupPoly,
      collapseNearbyVertices, removeCollinearVertices,
      VERTEX_COLLAPSE_THRESHOLD, COLLINEARITY_THRESHOLD, crossZ,
      List.filterMap_cons, lt_abs]
  have hc2 : clipPolyHalfPlane (pentPoly 1000) pentLine (-1) =
      [⟨-50, 0⟩, ⟨0, 0⟩, ⟨1/5, 1000⟩, ⟨-50, 1000⟩] := by
    norm_num [clipPolyHalfPlane, clipPolyHalfPlaneEps, clipPolyRaw, cyclicPairs,
      rotLeft1, rotRight1, clipEdgeEmit, signedDistanceToLine, dot2, sub2,
      perp2, lerp, EPS, pentPoly, pentLine, List.foldl, cleanupPoly,
      collapseNearbyVertices, removeCollinearVertices,
      VERTEX_COLLAPSE_THRESHOLD, COLLINEARITY_THRESHOLD, crossZ,
      List.filterMap_cons, lt_abs]
  rw [hc1, hc2]
  norm_num [polyArea, signedPolyArea, cyclicPairs, rotLeft1, crossZ, pentPoly,
    MIN_FACE_AREA, List.foldl]

/-- Witness for C6: the amended theorem instantiated at `h = 1000`,
`T = 50`. -/
theorem clip_area_additivity_fails_witness :
    (1000:ℚ) ≤ 1000 ∧ 10 * (50:ℚ) < 1000 ∧
    (polyArea (pentPoly 1000) = 501 * 1000 / 5 ∧
     polyArea (clipPolyHalfPlane (pentPoly 1000) pentLine 1) = 50 * 1000 ∧
     polyArea (clipPolyHalfPlane (pentPoly 1000) pentLine (-1)) =
       501 * 1000 / 10 ∧
     MIN_FACE_AREA < polyArea (clipPolyHalfPlane (pentPoly 1000) pentLine 1) ∧
     MIN_FACE_AREA <
       polyArea (clipPolyHalfPlane (pentPoly 1000) pentLine (-1)) ∧
     (50:ℚ) < |polyArea (pentPoly 1000) -
       (polyArea (clipPolyHalfPlane (pentPoly 1000) pentLine 1) +
        polyArea (clipPolyHalfPlane (pentPoly 1000) pentLine (-1)))|) :=
  ⟨by norm_num, by norm_num,
    clip_area_additivity_fails 1000 50 (by norm_num) (by norm_num)⟩
